import Mathlib

/-!
# Verification of the genai-bench measurement and streaming pipeline

A shallow embedding, in Lean 4, of the parts of the `genai-bench` repository
that the specification's claims are about:

* `StreamedResponseHandler.add_chunk` (SSE frame reassembly,
  `genai_bench/user/async_base_user.py`),
* `AsyncOpenAIUser._parse_streaming_response_async` (byte-level SSE parsing
  and TTFT capture, `genai_bench/user/async_openai_user.py`),
* the non-streaming / embeddings / plain-text parsers,
* `AsyncBaseUser.send_request_async` / `AsyncBasetenUser.send_request_async`,
* `StreamingDashboard` (ring-buffer histories, status updates, event queue,
  iteration RPS-vs-latency, `genai_bench/streaming/streaming_dashboard.py`),
* the FastAPI WebSocket endpoint of `StreamingServer`
  (`genai_bench/streaming/streaming_server.py`).

Python values flowing through the parsers are JSON-decoded dynamic values; we
model them with the inductive type `JVal` and give executable counterparts of
the Python operations the source uses on them (`in`, subscripting, `.get`,
truthiness).  Wall-clock floats are modelled as rationals, byte strings as
`List Char` (the source decodes every chunk as UTF-8 before inspecting it).
-/

namespace GenaiBench

/-- A JSON value as produced by Python's `json.loads`.  JSON numbers are kept
as exact rationals (every decimal literal with an integer exponent denotes a
rational); the non-standard literals `NaN`/`Infinity`/`-Infinity` that Python's
decoder also accepts get their own constructors since no claim does arithmetic
on them.  Python dicts from JSON keep the *last* binding for a duplicated key;
`JVal.objGet` implements that. -/
inductive JVal where
  | null : JVal
  | bool : Bool → JVal
  | num : ℚ → JVal
  | nan : JVal
  | inf : Bool → JVal  -- `true` = negative infinity
  | str : String → JVal
  | arr : List JVal → JVal
  | obj : List (String × JVal) → JVal

namespace JVal

/-- Python dict lookup on a JSON-decoded object: the last binding of the key
wins (as in `json.loads('{"a":1,"a":2}')`). -/
def objGet (kvs : List (String × JVal)) (k : String) : Option JVal :=
  (kvs.reverse.find? (fun p => p.1 = k)).map Prod.snd

/-- Python truthiness of a JSON-decoded value (`bool(v)`). -/
def pyTruthy : JVal → Bool
  | .null => false
  | .bool b => b
  | .num q => q ≠ 0
  | .nan => true
  | .inf _ => true
  | .str s => s ≠ ""
  | .arr xs => !xs.isEmpty
  | .obj kvs => !kvs.isEmpty

/-- `needle` occurs as a contiguous substring of `hay`. -/
def charsInfix (needle : List Char) : List Char → Bool
  | [] => needle.isEmpty
  | c :: t => needle.isPrefixOf (c :: t) || charsInfix needle t

/-- Python `==` between a string literal and a JSON-decoded value, as used by
membership tests such as `"delta" in some_list`. -/
def eqStr (k : String) : JVal → Bool
  | .str s => s = k
  | _ => false

/-- Python's `k in v` for a string literal `k`.  Defined for dicts (key
membership), lists (element membership) and strings (substring test); on any
other value Python raises `TypeError`, modelled as `none`. -/
def pyIn (k : String) : JVal → Option Bool
  | .obj kvs => some (kvs.any (fun p => p.1 = k))
  | .arr xs => some (xs.any (eqStr k))
  | .str s => some (charsInfix k.toList s.toList)
  | _ => none

/-- Python's `v[k]` for a string key.  Only dicts support it (`KeyError` when
absent); every other receiver raises, modelled as `none`. -/
def pySubscr (v : JVal) (k : String) : Option JVal :=
  match v with
  | .obj kvs => objGet kvs k
  | _ => none

/-- Python's `v.get(k)` / `v.get(k, default)`; only dicts have `.get`
(`AttributeError` otherwise, modelled as `none`).  An absent key yields the
supplied default. -/
def pyGet (v : JVal) (k : String) (dflt : JVal) : Option JVal :=
  match v with
  | .obj kvs => some ((objGet kvs k).getD dflt)
  | _ => none

/-- Python's `v[0]` on a non-empty truthy value: list indexing, string
indexing (first character); dicts raise `KeyError` and scalars `TypeError`,
modelled as `none`. -/
def pyIndex0 : JVal → Option JVal
  | .arr (x :: _) => some x
  | .str s =>
    match s.toList with
    | c :: _ => some (.str (String.mk [c]))
    | [] => none
  | _ => none

end JVal

/-! ## A JSON syntax checker / decoder

`jsonParse` is an executable recursive-descent decoder for the grammar that
Python's `json.loads` accepts (objects, arrays, strings with the standard
escapes, numbers with fraction and exponent, `true`/`false`/`null`, and the
CPython extensions `NaN`/`Infinity`/`-Infinity`).  It is used both by
`StreamedResponseHandler.add_chunk` (which only needs validity) and by the
stream parsers (which need the decoded value).  Recursion is by fuel; the
input length is always enough fuel since each nested value consumes at least
one character. -/

/-- JSON insignificant whitespace (RFC 8259: space, tab, LF, CR). -/
def jsonWS (c : Char) : Bool :=
  c = ' ' || c = '\t' || c = '\n' || c = '\r'

def skipWS (cs : List Char) : List Char := cs.dropWhile jsonWS

def isDigit (c : Char) : Bool := '0' ≤ c && c ≤ '9'

def digitVal (c : Char) : ℕ := c.toNat - '0'.toNat

/-- Read a non-empty run of digits, returning their value, count and rest. -/
def readDigits : List Char → ℕ → ℕ → (ℕ × ℕ × List Char)
  | c :: cs, acc, n =>
    if isDigit c then readDigits cs (10 * acc + digitVal c) (n + 1)
    else (acc, n, c :: cs)
  | [], acc, n => (acc, n, [])

/-- Parse a JSON number after an optional already-consumed minus sign.
JSON's grammar: `int frac? exp?` with `int = 0 | [1-9][0-9]*`. -/
def parseNumber (neg : Bool) (cs : List Char) : Option (JVal × List Char) := do
  -- integer part
  let (ipart, icount, rest) ←
    match cs with
    | '0' :: cs' => some ((0 : ℕ), 1, cs')
    | c :: _ =>
      if isDigit c ∧ c ≠ '0' then
        let (v, n, r) := readDigits cs 0 0
        some (v, n, r)
      else none
    | [] => none
  let _ ← if icount = 0 then none else some ()
  -- fraction part
  let (fnum, fdigits, rest) ←
    match rest with
    | '.' :: cs' =>
      let (v, n, r) := readDigits cs' 0 0
      if n = 0 then none else some (v, n, r)
    | _ => some ((0 : ℕ), (0 : ℕ), rest)
  -- exponent part
  let (expNeg, expVal, rest) ←
    match rest with
    | 'e' :: cs' | 'E' :: cs' =>
      let (sgn, cs'') :=
        match cs' with
        | '-' :: t => (true, t)
        | '+' :: t => (false, t)
        | t => (false, t)
      let (v, n, r) := readDigits cs'' 0 0
      if n = 0 then none else some (sgn, v, r)
    | _ => some (false, (0 : ℕ), rest)
  let mantissa : ℚ := (ipart : ℚ) + (fnum : ℚ) / ((10 : ℚ) ^ fdigits)
  let scaled : ℚ :=
    if expNeg then mantissa / ((10 : ℚ) ^ expVal) else mantissa * ((10 : ℚ) ^ expVal)
  let value : ℚ := if neg then -scaled else scaled
  some (JVal.num value, rest)

def hexVal (c : Char) : Option ℕ :=
  if isDigit c then some (digitVal c)
  else if 'a' ≤ c ∧ c ≤ 'f' then some (c.toNat - 'a'.toNat + 10)
  else if 'A' ≤ c ∧ c ≤ 'F' then some (c.toNat - 'A'.toNat + 10)
  else none

/-- Parse the body of a JSON string (the opening quote already consumed),
decoding the standard escapes.  A `\uXXXX` escape is mapped through
`Char.ofNat` (surrogate halves, which Lean's `Char` cannot represent, fall to
`Char.ofNat`'s default; no claim exercises them).  Unescaped control
characters are rejected, as in Python's strict mode. -/
def parseStringBody : List Char → List Char → Option (String × List Char)
  | '"' :: rest, acc => some (String.mk acc.reverse, rest)
  | '\\' :: e :: rest, acc =>
    match e with
    | '"' => parseStringBody rest ('"' :: acc)
    | '\\' => parseStringBody rest ('\\' :: acc)
    | '/' => parseStringBody rest ('/' :: acc)
    | 'b' => parseStringBody rest ('\x08' :: acc)
    | 'f' => parseStringBody rest ('\x0c' :: acc)
    | 'n' => parseStringBody rest ('\n' :: acc)
    | 'r' => parseStringBody rest ('\r' :: acc)
    | 't' => parseStringBody rest ('\t' :: acc)
    | 'u' =>
      match rest with
      | h1 :: h2 :: h3 :: h4 :: rest' => do
        let v1 ← hexVal h1
        let v2 ← hexVal h2
        let v3 ← hexVal h3
        let v4 ← hexVal h4
        let code := ((v1 * 16 + v2) * 16 + v3) * 16 + v4
        parseStringBody rest' (Char.ofNat code :: acc)
      | _ => none
    | _ => none
  | c :: rest, acc =>
    if c.toNat < 0x20 then none else parseStringBody rest (c :: acc)
  | [], _ => none

def expectLit (pre s : List Char) : Option (List Char) :=
  match pre, s with
  | [], s => some s
  | _, [] => none
  | p :: ps, c :: cs => if p = c then expectLit ps cs else none

mutual

/-- Parse one JSON value (leading whitespace allowed). -/
def parseVal (fuel : ℕ) (cs : List Char) : Option (JVal × List Char) :=
  match fuel with
  | 0 => none
  | fuel + 1 =>
    match skipWS cs with
    | '{' :: rest => parseObjBody fuel (skipWS rest) []
    | '[' :: rest => parseArrBody fuel (skipWS rest) []
    | '"' :: rest => (parseStringBody rest []).map (fun (s, r) => (JVal.str s, r))
    | 't' :: rest => (expectLit "rue".toList rest).map (fun r => (JVal.bool true, r))
    | 'f' :: rest => (expectLit "alse".toList rest).map (fun r => (JVal.bool false, r))
    | 'n' :: rest => (expectLit "ull".toList rest).map (fun r => (JVal.null, r))
    | 'N' :: rest => (expectLit "aN".toList rest).map (fun r => (JVal.nan, r))
    | 'I' :: rest => (expectLit "nfinity".toList rest).map (fun r => (JVal.inf false, r))
    | '-' :: 'I' :: rest =>
      (expectLit "nfinity".toList rest).map (fun r => (JVal.inf true, r))
    | '-' :: rest => parseNumber true rest
    | c :: rest => if isDigit c then parseNumber false (c :: rest) else none
    | [] => none

/-- Parse the members of an object after `{` (and any whitespace). -/
def parseObjBody (fuel : ℕ) (cs : List Char) (acc : List (String × JVal)) :
    Option (JVal × List Char) :=
  match fuel with
  | 0 => none
  | fuel + 1 =>
    match cs, acc with
    | '}' :: rest, [] => some (JVal.obj [], rest)
    | _, _ =>
      match cs with
      | '"' :: rest => do
        let (k, rest') ← parseStringBody rest []
        match skipWS rest' with
        | ':' :: rest'' => do
          let (v, rest''') ← parseVal fuel rest''
          match skipWS rest''' with
          | ',' :: more => parseObjBody fuel (skipWS more) ((k, v) :: acc)
          | '}' :: more => some (JVal.obj ((k, v) :: acc).reverse, more)
          | _ => none
        | _ => none
      | _ => none

/-- Parse the elements of an array after `[` (and any whitespace). -/
def parseArrBody (fuel : ℕ) (cs : List Char) (acc : List JVal) :
    Option (JVal × List Char) :=
  match fuel with
  | 0 => none
  | fuel + 1 =>
    match cs, acc with
    | ']' :: rest, [] => some (JVal.arr [], rest)
    | _, _ => do
      let (v, rest) ← parseVal fuel cs
      match skipWS rest with
      | ',' :: more => parseArrBody fuel more (v :: acc)
      | ']' :: more => some (JVal.arr (v :: acc).reverse, more)
      | _ => none

end

/-- `json.loads` on a character list: one JSON value surrounded by optional
whitespace, nothing else. -/
def jsonLoads (cs : List Char) : Option JVal :=
  match parseVal (cs.length + 1) cs with
  | some (v, rest) => if (skipWS rest).isEmpty then some v else none
  | none => none

/-- `json.loads` succeeds — the test `add_chunk` runs on a buffered tail. -/
def jsonValid (cs : List Char) : Bool := (jsonLoads cs).isSome

/-! ## `StreamedResponseHandler.add_chunk`
(`genai_bench/user/async_base_user.py`, lines 17-56)

The handler accumulates decoded chunk text in `self.buffer`, repeatedly
splits off the part before the first `"\n\n"` (`while "\n\n" in self.buffer:
message, self.buffer = self.buffer.split("\n\n", 1)`), strips each message and
keeps the non-empty ones, and finally early-emits the remaining tail when it
starts with `"data: "` and its payload is `[DONE]` or complete JSON. -/

/-- Python's default `str.strip()` character class (the ASCII part; the
source never feeds non-ASCII whitespace). -/
def pyWSpace (c : Char) : Bool :=
  c = ' ' || c = '\t' || c = '\n' || c = '\r' || c = '\x0b' || c = '\x0c'

/-- `str.strip()`. -/
def pyStrip (s : List Char) : List Char :=
  ((s.dropWhile pyWSpace).reverse.dropWhile pyWSpace).reverse

/-- The SSE frame separator `"\n\n"`. -/
def sseSep : List Char := ['\n', '\n']

/-- Split at the first occurrence of `"\n\n"`, as `buffer.split("\n\n", 1)`
does when the separator is present (`none` when it is not). -/
def findSplit : List Char → Option (List Char × List Char)
  | [] => none
  | c :: rest =>
    if sseSep.isPrefixOf (c :: rest) then some ([], (c :: rest).drop 2)
    else (findSplit rest).map (fun p => (c :: p.1, p.2))

/-- The source's `while "\n\n" in self.buffer` loop: repeatedly split off the
segment before the first separator.  Returns the segments in order together
with the final buffer.  Fuel-based so that it reduces definitionally; the
buffer length plus one is always sufficient fuel because every iteration
consumes the two separator characters. -/
def extractLoop : ℕ → List Char → List (List Char) × List Char
  | 0, buf => ([], buf)
  | fuel + 1, buf =>
    match findSplit buf with
    | none => ([], buf)
    | some (pre, rest) =>
      let (ms, b) := extractLoop fuel rest
      (pre :: ms, b)

/-- `"data: "`. -/
def dataColon : List Char := "data: ".toList

/-- `s.removeprefix("data: ")`. -/
def removeDataColon (s : List Char) : List Char :=
  if dataColon.isPrefixOf s then s.drop 6 else s

/-- `StreamedResponseHandler.add_chunk`, on the concatenation of the stored
buffer and the incoming (UTF-8 decoded) chunk.  Returns the emitted messages
and the new buffer. -/
def addChunk (buffer chunk : List Char) : List (List Char) × List Char :=
  let s := buffer ++ chunk
  let (parts, tail) := extractLoop (s.length + 1) s
  let messages := (parts.map pyStrip).filter (fun m => !m.isEmpty)
  if dataColon.isPrefixOf tail then
    let content := pyStrip (removeDataColon tail)
    if content = "[DONE]".toList then
      (messages ++ [pyStrip tail], [])
    else if !content.isEmpty then
      if jsonValid content then (messages ++ [pyStrip tail], [])
      else (messages, tail)
    else (messages, tail)
  else (messages, tail)

/-! ### Specification-side description of the framing (for claim C2)

The claim describes the framing in one shot: the accumulated buffer is cut at
every `"\n\n"`, each piece before a separator is extracted as a complete
frame, and the final piece is the tail.  `segsOf` computes exactly this
decomposition in a single left-to-right pass (it is `s.split("\n\n")`), and
`addChunkSpec` restates `add_chunk` with it. -/

/-- All separator-delimited segments of `s`, leftmost-first and
non-overlapping: `len(s.split("\n\n"))` segments, the last being the tail
that follows the final separator. -/
def segsOf (s : List Char) : List (List Char) :=
  match s with
  | [] => [[]]
  | c :: rest =>
    if sseSep.isPrefixOf (c :: rest) then
      [] :: segsOf (rest.drop 1)
    else
      match segsOf rest with
      | [] => [[c]]
      | hd :: t => (c :: hd) :: t
termination_by s.length
decreasing_by
  all_goals simp only [List.length_cons, List.length_drop]
  all_goals omega

/-- The early-emit test on the tail, shared verbatim by source and spec: a
tail starting with `"data: "` whose payload is `[DONE]` or complete JSON is
emitted (stripped) and the buffer cleared. -/
def tailEmit (messages : List (List Char)) (tail : List Char) :
    List (List Char) × List Char :=
  if dataColon.isPrefixOf tail then
    let content := pyStrip (removeDataColon tail)
    if content = "[DONE]".toList then
      (messages ++ [pyStrip tail], [])
    else if !content.isEmpty then
      if jsonValid content then (messages ++ [pyStrip tail], [])
      else (messages, tail)
    else (messages, tail)
  else (messages, tail)

/-- The claim's description of `add_chunk`: concatenate buffer and chunk,
extract every prefix ending in `"\n\n"` as a complete frame (stripped, empty
frames discarded), then apply the early-emit test to the remaining tail. -/
def addChunkSpec (buffer chunk : List Char) : List (List Char) × List Char :=
  let s := buffer ++ chunk
  let segs := segsOf s
  let messages := (segs.dropLast.map pyStrip).filter (fun m => !m.isEmpty)
  tailEmit messages (segs.getLastD [])

/-! ## `AsyncOpenAIUser._parse_streaming_response_async`
(`genai_bench/user/async_openai_user.py`, lines 123-221)

The parser walks the chunk stream, feeds every chunk through a
`StreamedResponseHandler`, and per emitted message: skips SSE comments,
strips the `"data: "` prefix, stops the current chunk's message loop at
`[DONE]`, decodes JSON (malformed frames are skipped), captures TTFT at the
first decoded frame containing a `"choices"` key, returns early on a non-null
`"error"` member, accumulates `choices[0].delta.content`, and records
`usage.prompt_tokens` / `usage.completion_tokens`.  Any runtime exception in
the loop is caught by the surrounding handler, which returns a 500 response.

The wall clock (`time.monotonic()`) is modelled by a function
`clock : ℕ → ℚ` giving the time at which the message with the given global
index is observed, plus an explicit `endClock` for the final read. -/

/-- `v is None` for a Python variable holding either "never assigned"
(`none`) or a decoded JSON value — where decoded JSON `null` *is* Python's
`None`. -/
def isNoneLike : Option JVal → Bool
  | none => true
  | some .null => true
  | some _ => false

/-- Python falsiness of an optional float — `not x` is true for `None` and
for `0.0`. -/
def pyFalsyTime : Option ℚ → Bool
  | none => true
  | some q => q = 0

/-- Python `x + 1` on a JSON-decoded value (`int`/`float`/`bool` support it;
anything else raises `TypeError`, modelled as `none`). -/
def pyAdd1 : JVal → Option JVal
  | .num q => some (.num (q + 1))
  | .bool b => some (.num ((if b then 1 else 0) + 1))
  | _ => none

/-- Python `s + v` for a string `s` (only another string may be appended). -/
def pyConcatStr (s : String) (v : JVal) : Option String :=
  match v with
  | .str t => some (s ++ t)
  | _ => none

/-- Mutable locals of `_parse_streaming_response_async`, plus two ghost
fields: `ttftMsgIdx` records the global index of the frame that captured
TTFT, and `msgIdx` counts the frames handed to `json.loads` so far.
(`previous_data` is assigned in the source but never read, so it is not
modelled.) -/
structure PState where
  generatedText : String
  tokensReceived : JVal
  timeAtFirstToken : Option ℚ
  ttftMsgIdx : Option ℕ
  finishReason : Option JVal
  numPromptTokens : Option JVal
  msgIdx : ℕ

def PState.init : PState :=
  { generatedText := ""
    tokensReceived := .num 0
    timeAtFirstToken := none
    ttftMsgIdx := none
    finishReason := none
    numPromptTokens := none
    msgIdx := 0 }

/-- The modelled `UserResponse` (and its `UserChatResponse` extension): the
fields passed at the construction sites visible in `src/`.  Unset keyword
arguments are `none`. -/
structure UserResp where
  statusCode : JVal
  errorMessage : Option JVal := none
  generatedText : Option JVal := none
  tokensReceived : Option JVal := none
  numPrefillTokens : Option JVal := none
  finishReason : Option JVal := none
  startTime : Option ℚ := none
  endTime : Option ℚ := none
  timeAtFirstToken : Option ℚ := none
  embeddings : Option (List JVal) := none

/-- Outcome of one iteration of the message loop. -/
inductive LoopRes where
  | next (st : PState)    -- fall through to the next message
  | ret (r : UserResp)    -- the early `return` on a server-signalled error
  | exn                   -- a runtime exception, caught by the outer handler

/-- The TTFT capture line: `if time_at_first_token is None and ("choices" in
data):` (short-circuit: the membership test only runs while TTFT is unset). -/
def ttftCapture (clock : ℕ → ℚ) (st : PState) (data : JVal) : Option PState :=
  match st.timeAtFirstToken with
  | some _ => some st
  | none => do
    let b ← JVal.pyIn "choices" data
    if b then
      some { st with timeAtFirstToken := some (clock st.msgIdx),
                     ttftMsgIdx := some st.msgIdx }
    else some st

/-- `if data.get("error") is not None: return UserResponse(...)`; `some none`
means the branch was not taken, `some (some r)` the early return of `r`, and
`none` a runtime exception in the branch. -/
def streamErrorReturn (data : JVal) : Option (Option UserResp) := do
  let errv ← JVal.pyGet data "error" .null
  match errv with
  | .null => some none
  | e => do
    let code ← JVal.pyGet e "code" (.num (-1))
    let msg ← JVal.pyGet e "message" (.str "Unknown error, please check server logs")
    some (some { statusCode := code, errorMessage := some msg })

/-- `if "content" in delta and delta["content"]:` — append the content
string and count one token. -/
def contentStep (st : PState) (dlt : JVal) : Option PState := do
  let coin ← JVal.pyIn "content" dlt
  if coin then do
    let content ← JVal.pySubscr dlt "content"
    if content.pyTruthy then do
      let g ← pyConcatStr st.generatedText content
      let t ← pyAdd1 st.tokensReceived
      some { st with generatedText := g, tokensReceived := t }
    else some st
  else some st

/-- `if "finish_reason" in choice and choice["finish_reason"]:`. -/
def finishReasonStep (st : PState) (choice : JVal) : Option PState := do
  let fin ← JVal.pyIn "finish_reason" choice
  if fin then do
    let fr ← JVal.pySubscr choice "finish_reason"
    if fr.pyTruthy then some { st with finishReason := some fr }
    else some st
  else some st

/-- `if "choices" in data and data["choices"]:` — content accumulation and
finish-reason capture from `choices[0].delta`. -/
def choicesBlock (st : PState) (data : JVal) : Option PState := do
  let cin ← JVal.pyIn "choices" data
  if cin then do
    let cval ← JVal.pySubscr data "choices"
    if cval.pyTruthy then do
      let choice ← JVal.pyIndex0 cval
      let din ← JVal.pyIn "delta" choice
      if din then do
        let dlt ← JVal.pySubscr choice "delta"
        let st ← contentStep st dlt
        finishReasonStep st choice
      else some st
    else some st
  else some st

/-- `if "prompt_tokens" in usage:`. -/
def promptTokensStep (st : PState) (uval : JVal) : Option PState := do
  let pin ← JVal.pyIn "prompt_tokens" uval
  if pin then do
    let pv ← JVal.pySubscr uval "prompt_tokens"
    some { st with numPromptTokens := some pv }
  else some st

/-- `if "completion_tokens" in usage:`. -/
def completionTokensStep (st : PState) (uval : JVal) : Option PState := do
  let cin2 ← JVal.pyIn "completion_tokens" uval
  if cin2 then do
    let cv ← JVal.pySubscr uval "completion_tokens"
    some { st with tokensReceived := cv }
  else some st

/-- `if "usage" in data and data["usage"]:` — `prompt_tokens` populates
`num_prompt_tokens`, `completion_tokens` overwrites `tokens_received`. -/
def usageBlock (st : PState) (data : JVal) : Option PState := do
  let uin ← JVal.pyIn "usage" data
  if uin then do
    let uval ← JVal.pySubscr data "usage"
    if uval.pyTruthy then do
      let st ← promptTokensStep st uval
      completionTokensStep st uval
    else some st
  else some st

/-- The loop body applied to one decoded JSON frame `data` (the source's
`try:` block after `json.loads` succeeded).  `none` models a runtime
exception (`TypeError`/`AttributeError`/`KeyError`) escaping to the outer
`except Exception` handler.  (`previous_data` is assigned in the source but
never read, so it is not modelled.) -/
def stepJson (clock : ℕ → ℚ) (st : PState) (data : JVal) : Option (UserResp ⊕ PState) := do
  let st ← ttftCapture clock st data
  match ← streamErrorReturn data with
  | some r => some (Sum.inl r)
  | none => do
    let st ← choicesBlock st data
    let st ← usageBlock st data
    some (Sum.inr { st with msgIdx := st.msgIdx + 1 })

/-- One message as handed to `json.loads` (after `removeprefix("data: ")`),
i.e. the frame payload. -/
def stepPayload (clock : ℕ → ℚ) (st : PState) (payload : List Char) : LoopRes :=
  match jsonLoads payload with
  | none => .next { st with msgIdx := st.msgIdx + 1 }   -- JSONDecodeError: skip
  | some data =>
    match stepJson clock st data with
    | none => .exn
    | some (Sum.inl r) => .ret r
    | some (Sum.inr st') => .next st'

/-- `message.startswith(":")`. -/
def isComment : List Char → Bool
  | ':' :: _ => true
  | _ => false

/-- The `for message in messages:` loop over one chunk's emitted messages;
`break` on `[DONE]` abandons the rest of this chunk only. -/
def processChunkMsgs (clock : ℕ → ℚ) : PState → List (List Char) → LoopRes
  | st, [] => .next st
  | st, m :: ms =>
    if isComment m then processChunkMsgs clock st ms
    else
      let chunk := removeDataColon m
      if chunk = "[DONE]".toList then .next st
      else
        match stepPayload clock st chunk with
        | .next st' => processChunkMsgs clock st' ms
        | r => r

/-- The `async for chunk_bytes in response.content.iter_any():` loop, with
the handler buffer threaded through. -/
def parseLoop (clock : ℕ → ℚ) : PState → List Char → List (List Char) → LoopRes
  | st, _, [] => .next st
  | st, buf, chunk :: rest =>
    let (msgs, buf') := addChunk buf chunk
    match processChunkMsgs clock st msgs with
    | .next st' => parseLoop clock st' buf' rest
    | r => r

/-- Python `num_prefill_tokens or num_prompt_tokens` in the success
constructor: the parameter if truthy, otherwise the `usage`-derived local
(whose decoded-`null` state is Python's `None`). -/
def prefillOr (p : Option ℤ) (npt : Option JVal) : Option JVal :=
  match p with
  | some n => if n ≠ 0 then some (.num n) else (if isNoneLike npt then none else npt)
  | none => if isNoneLike npt then none else npt

/-- `AsyncOpenAIUser._parse_streaming_response_async` on a stream of decoded
chunks.  `clock i` is the wall-clock value read when capturing TTFT at the
frame with global index `i`; `endClock` is the final `time.monotonic()`
read. -/
def parseStreamingResponseAsync (chunks : List (List Char)) (startTime : ℚ)
    (numPrefillTokens : Option ℤ) (clock : ℕ → ℚ) (endClock : ℚ) : UserResp :=
  match parseLoop clock PState.init [] chunks with
  | .ret r => r
  | .exn =>
    { statusCode := .num 500
      errorMessage := some (.str "Error parsing streaming response") }
  | .next st =>
    -- `if not time_at_first_token and num_prompt_tokens is None:`
    if pyFalsyTime st.timeAtFirstToken && isNoneLike st.numPromptTokens then
      { statusCode := .num 500
        errorMessage := some (.str "No valid streaming data received") }
    else
      { statusCode := .num 200
        generatedText := some (.str st.generatedText)
        tokensReceived := some st.tokensReceived
        numPrefillTokens := prefillOr numPrefillTokens st.numPromptTokens
        finishReason := st.finishReason
        startTime := some startTime
        endTime := some endClock
        timeAtFirstToken := st.timeAtFirstToken }

/-- The final parser state (ghost view) of a run that neither returned early
nor raised. -/
def parseStreamingFinalState (chunks : List (List Char)) (clock : ℕ → ℚ) :
    Option PState :=
  match parseLoop clock PState.init [] chunks with
  | .next st => some st
  | _ => none

/-! ### Observed frames and benign streams

`observedMessages` lists, in order, exactly the frame payloads the parser
hands to `json.loads`: the handler's emitted messages, minus SSE comments,
truncated at a `[DONE]` within each chunk.  `benignPayload` delimits the
frames on which the loop body can neither raise nor return early: well-typed
objects without a server-signalled error.  (It is deliberately conservative —
some exotic frames outside it would also run cleanly.) -/

/-- The payloads `json.loads` is attempted on within one chunk's message
list. -/
def observedOfChunk : List (List Char) → List (List Char)
  | [] => []
  | m :: ms =>
    if isComment m then observedOfChunk ms
    else
      let chunk := removeDataColon m
      if chunk = "[DONE]".toList then []
      else chunk :: observedOfChunk ms

/-- All payloads `json.loads` is attempted on over the whole stream, given
the handler buffer contents. -/
def observedMessages : List Char → List (List Char) → List (List Char)
  | _, [] => []
  | buf, chunk :: rest =>
    let (msgs, buf2) := addChunk buf chunk
    observedOfChunk msgs ++ observedMessages buf2 rest

/-- The decoded value is JSON `null`. -/
def isNullJ : JVal → Bool
  | .null => true
  | _ => false

/-- The decoded value is a number or a boolean (the values Python's `x + 1`
accepts). -/
def numLike : JVal → Bool
  | .num _ => true
  | .bool _ => true
  | _ => false

/-- A safe value for the `choices` member. -/
def benignChoiceVal : JVal → Bool
  | .arr [] => true
  | .arr (c :: _) =>
    match c with
    | .obj kvs =>
      match JVal.objGet kvs "delta" with
      | none => true
      | some (.obj dkvs) =>
        match JVal.objGet dkvs "content" with
        | none => true
        | some cv => !cv.pyTruthy || (match cv with | .str _ => true | _ => false)
      | some _ => false
    | _ => false
  | v => !v.pyTruthy

/-- A safe value for the `usage` member: falsy, or an object whose
`completion_tokens` (if any) is numeric and whose `prompt_tokens` (if any) is
numeric (in particular non-null). -/
def benignUsageVal (v : JVal) : Bool :=
  !v.pyTruthy ||
  (match v with
   | .obj kvs =>
     (match JVal.objGet kvs "completion_tokens" with
      | none => true
      | some cv => numLike cv) &&
     (match JVal.objGet kvs "prompt_tokens" with
      | none => true
      | some pv => numLike pv)
   | _ => false)

/-- A decoded frame on which the loop body is guaranteed not to raise and
not to return early: an object with no (non-null) `error` member and
well-shaped `choices`/`usage` members. -/
def benignData : JVal → Bool
  | .obj kvs =>
    (match JVal.objGet kvs "error" with
     | none => true
     | some ev => isNullJ ev) &&
    (match JVal.objGet kvs "choices" with
     | none => true
     | some cv => benignChoiceVal cv) &&
    (match JVal.objGet kvs "usage" with
     | none => true
     | some uv => benignUsageVal uv)
  | _ => false

/-- A frame payload on which the loop body is guaranteed not to raise and
not to return early: undecodable (skipped) or benign once decoded. -/
def benignPayload (p : List Char) : Bool :=
  match jsonLoads p with
  | none => true
  | some d => benignData d

/-- The decoded frame has a `"choices"` key — the source's TTFT-capture
condition (`"choices" in data`). -/
def dataHasChoicesKey : JVal → Bool
  | .obj kvs => (JVal.objGet kvs "choices").isSome
  | _ => false

/-- The decoded frame has a truthy `usage` object carrying `prompt_tokens` —
the condition under which the loop assigns `num_prompt_tokens`. -/
def dataHasUsagePT : JVal → Bool
  | .obj kvs =>
    match JVal.objGet kvs "usage" with
    | some (.obj ukvs) =>
      JVal.pyTruthy (.obj ukvs) && (JVal.objGet ukvs "prompt_tokens").isSome
    | _ => false
  | _ => false

/-- The decoded payload is an object with a `"choices"` key (of any value —
this is the condition the source's TTFT capture tests). -/
def hasChoicesKey (p : List Char) : Bool :=
  match jsonLoads p with
  | some (.obj kvs) => (JVal.objGet kvs "choices").isSome
  | _ => false

/-- The decoded payload is an object with a *non-empty* (truthy) `"choices"`
array — what the specification says should gate TTFT. -/
def hasPopulatedChoices (p : List Char) : Bool :=
  match jsonLoads p with
  | some (.obj kvs) =>
    match JVal.objGet kvs "choices" with
    | some cv => cv.pyTruthy
    | none => false
  | _ => false

/-- The decoded payload carries a truthy `usage` object with a
`prompt_tokens` member. -/
def hasUsagePromptTokens (p : List Char) : Bool :=
  match jsonLoads p with
  | some (.obj kvs) =>
    match JVal.objGet kvs "usage" with
    | some (.obj ukvs) =>
      JVal.pyTruthy (.obj ukvs) && (JVal.objGet ukvs "prompt_tokens").isSome
    | _ => false
  | _ => false

/-- The decoded payload carries a truthy `usage` member (of any shape). -/
def hasTruthyUsage (p : List Char) : Bool :=
  match jsonLoads p with
  | some (.obj kvs) =>
    match JVal.objGet kvs "usage" with
    | some uv => uv.pyTruthy
    | none => false
  | _ => false

/-! ## Non-streaming parsers
(`genai_bench/user/async_openai_user.py` lines 223-312,
`genai_bench/user/async_baseten_user.py` lines 258-322)

Each receives the decoded response body (`none` models `await
response.json()` / `await response.text()` itself raising, which the
enclosing `except Exception` turns into a 500 response) and the two clock
reads.  All three fabricate `time_at_first_token = start_time + 0.001`. -/

/-- The generic 500 response produced by an `except Exception` handler; the
source interpolates the exception text after the given prefix, which no
claim inspects. -/
def exnResp (prefixMsg : String) : UserResp :=
  { statusCode := .num 500, errorMessage := some (.str prefixMsg) }

/-- Shared embedding of `if "error" in data: return UserResponse(...)`:
`none` = no error branch taken, `some (inl r)` = returned `r`,
`some (inr ())` is unused.  A raising lookup yields the 500 handler
response. -/
def errorBranch (data : JVal) (dfltMsg : String) : Option (Option UserResp) := do
  let b ← JVal.pyIn "error" data
  if b then do
    let ev ← JVal.pySubscr data "error"
    let code ← JVal.pyGet ev "code" (.num (-1))
    let msg ← JVal.pyGet ev "message" (.str dfltMsg)
    some (some { statusCode := code, errorMessage := some msg })
  else some none

/-- `AsyncOpenAIUser._parse_non_streaming_response_async`. -/
def parseNonStreamingResponseAsync (data : Option JVal) (startTime : ℚ)
    (numPrefillTokens : Option ℤ) (endClock : ℚ) : UserResp :=
  match data with
  | none => exnResp "Error parsing response"
  | some d =>
    let body : Option UserResp := do
      match ← errorBranch d "Unknown error" with
      | some r => some r
      | none => do
        let choices ← JVal.pyGet d "choices" (.arr [])
        let (generatedText, finishReason) ←
          if choices.pyTruthy then do
            let choice ← JVal.pyIndex0 choices
            let msg ← JVal.pyGet choice "message" (.obj [])
            let g ← JVal.pyGet msg "content" (.str "")
            let fr ← JVal.pyGet choice "finish_reason" .null
            some (g, if isNullJ fr then none else some fr)
          else
            some (JVal.str "", none)
        let usage ← JVal.pyGet d "usage" (.obj [])
        let tokens ← JVal.pyGet usage "completion_tokens" (.num 0)
        let promptTokens ← JVal.pyGet usage "prompt_tokens"
          (match numPrefillTokens with | some n => .num n | none => .null)
        some { statusCode := .num 200
               generatedText := some generatedText
               tokensReceived := some tokens
               numPrefillTokens := if isNullJ promptTokens then none else some promptTokens
               finishReason := finishReason
               startTime := some startTime
               endTime := some endClock
               timeAtFirstToken := some (startTime + 1/1000) }
    body.getD (exnResp "Error parsing response")

/-- The list comprehension `[item.get("embedding", []) for item in
embeddings]`; iterating a non-list raises unless it is an empty string or
empty dict (whose iterations are empty). -/
def pyMapEmbedding : JVal → Option (List JVal)
  | .arr xs => xs.mapM (fun item => JVal.pyGet item "embedding" (.arr []))
  | .str s => if s = "" then some [] else none
  | .obj kvs => if kvs.isEmpty then some [] else none
  | _ => none

/-- `AsyncOpenAIUser.parse_embeddings_response_async`. -/
def parseEmbeddingsResponseAsync (data : Option JVal) (startTime : ℚ)
    (endClock : ℚ) : UserResp :=
  match data with
  | none => exnResp "Error parsing embeddings response"
  | some d =>
    let body : Option UserResp := do
      match ← errorBranch d "Unknown error" with
      | some r => some r
      | none => do
        let embeddings ← JVal.pyGet d "data" (.arr [])
        let embList ← pyMapEmbedding embeddings
        some { statusCode := .num 200
               startTime := some startTime
               endTime := some endClock
               timeAtFirstToken := some (startTime + 1/1000)
               embeddings := some embList }
    body.getD (exnResp "Error parsing embeddings response")

/-- Python `a or b`. -/
def pyOrJ (a b : JVal) : JVal := if a.pyTruthy then a else b

/-- `AsyncBasetenUser._parse_plain_text_response_async`.  `text` is the
stripped response body (`none` = `response.text()` raised); `tokenLen`
models `self.environment.sampler.get_token_length`. -/
def parsePlainTextResponseAsync (text : Option String) (startTime : ℚ)
    (numPrefillTokens : Option ℤ) (endClock : ℚ) (tokenLen : JVal → ℤ) : UserResp :=
  match text with
  | none => exnResp "Failed to parse plain text response"
  | some t =>
    let generatedText : JVal :=
      match jsonLoads t.toList with
      | some (.obj kvs) =>
        pyOrJ ((JVal.objGet kvs "text").getD .null)
          (pyOrJ ((JVal.objGet kvs "output").getD .null)
            (pyOrJ ((JVal.objGet kvs "response").getD .null)
              (pyOrJ ((JVal.objGet kvs "generated_text").getD .null) (.str t))))
      | _ => .str t
    { statusCode := .num 200
      generatedText := some generatedText
      tokensReceived := some (.num (tokenLen generatedText))
      timeAtFirstToken := some (startTime + 1/1000)
      numPrefillTokens := (numPrefillTokens.map (fun n => JVal.num n))
      startTime := some startTime
      endTime := some endClock }

/-! ## `send_request_async`
(`genai_bench/user/async_base_user.py` lines 116-158 and the structurally
identical `genai_bench/user/async_baseten_user.py` lines 324-367, which
differs only in posting to `self.host` instead of `self.host + endpoint` —
a distinction outside this model).

One invocation is summarised by a `RequestOutcome`: either the POST itself
raised, or it produced a status together with the results of draining the
body (`await response.text()`) and of running the supplied parse strategy —
each of which may itself raise.  `Except.error` in the executor's result
models an exception escaping to the caller. -/

inductive RequestOutcome where
  | exn (msg : String)
  | response (status : ℤ) (drain : Except String String)
      (parsed : Except String UserResp)

def sendRequestAsync (sessionInit : Bool) (o : RequestOutcome) :
    Except String UserResp :=
  if !sessionInit then
    .error "aiohttp session not initialized. Call on_start() first."
  else
    match o with
    | .exn m => .ok { statusCode := .num (-1), errorMessage := some (.str m) }
    | .response status drain parsed =>
      if status = 200 then
        match parsed with
        | .ok r => .ok r
        | .error m => .ok { statusCode := .num (-1), errorMessage := some (.str m) }
      else
        match drain with
        | .ok body => .ok { statusCode := .num status, errorMessage := some (.str body) }
        | .error m => .ok { statusCode := .num (-1), errorMessage := some (.str m) }

/-! ## `StreamingDashboard`
(`genai_bench/streaming/streaming_dashboard.py`)

`BenchmarkStatus` is a dataclass of twelve fields holding arbitrary Python
values (`setattr` never type-checks), modelled with `JVal` fields.  The
ring-buffer histories are modelled with abstract entry payloads: only their
identity and order matter to the claims. -/

/-- The `BenchmarkStatus` dataclass (lines 16-31). -/
structure BStatus where
  status : JVal
  current_scenario : JVal
  current_iteration : JVal
  total_scenarios : JVal
  total_iterations : JVal
  progress_percentage : JVal
  start_time : JVal
  estimated_end_time : JVal
  error_message : JVal
  current_concurrency : JVal
  traffic_scenario : JVal
  scenario_name : JVal

/-- The attribute names `hasattr(self.benchmark_status, key)` recognises
(the dataclass' twelve fields). -/
def statusFieldNames : List String :=
  ["status", "current_scenario", "current_iteration", "total_scenarios",
   "total_iterations", "progress_percentage", "start_time",
   "estimated_end_time", "error_message", "current_concurrency",
   "traffic_scenario", "scenario_name"]

/-- `getattr` on a `BenchmarkStatus` field name. -/
def getStatusField (s : BStatus) : String → Option JVal
  | "status" => some s.status
  | "current_scenario" => some s.current_scenario
  | "current_iteration" => some s.current_iteration
  | "total_scenarios" => some s.total_scenarios
  | "total_iterations" => some s.total_iterations
  | "progress_percentage" => some s.progress_percentage
  | "start_time" => some s.start_time
  | "estimated_end_time" => some s.estimated_end_time
  | "error_message" => some s.error_message
  | "current_concurrency" => some s.current_concurrency
  | "traffic_scenario" => some s.traffic_scenario
  | "scenario_name" => some s.scenario_name
  | _ => none

/-- `setattr` on a `BenchmarkStatus` field name; unknown names leave the
record unchanged (the caller guards with `hasattr`). -/
def setStatusField (s : BStatus) (k : String) (v : JVal) : BStatus :=
  match k with
  | "status" => { s with status := v }
  | "current_scenario" => { s with current_scenario := v }
  | "current_iteration" => { s with current_iteration := v }
  | "total_scenarios" => { s with total_scenarios := v }
  | "total_iterations" => { s with total_iterations := v }
  | "progress_percentage" => { s with progress_percentage := v }
  | "start_time" => { s with start_time := v }
  | "estimated_end_time" => { s with estimated_end_time := v }
  | "error_message" => { s with error_message := v }
  | "current_concurrency" => { s with current_concurrency := v }
  | "traffic_scenario" => { s with traffic_scenario := v }
  | "scenario_name" => { s with scenario_name := v }
  | _ => s

/-- The `for key, value in kwargs.items(): if hasattr(...): setattr(...)`
loop of `update_benchmark_status` (lines 103-107).  `kwargs` is the keyword
arguments in order. -/
def updateBenchmarkStatusFields (s : BStatus) (kwargs : List (String × JVal)) :
    BStatus :=
  kwargs.foldl
    (fun s kv =>
      if (getStatusField s kv.1).isSome then setStatusField s kv.1 kv.2 else s)
    s

/-! ### The event queue (`_queue_event`, lines 377-402)

The dashboard owns a single `asyncio.Queue()` shared by all consumers
(`__init__`, line 66, constructs it unbounded).  `_queue_event` builds the
event and then: does nothing when the dashboard is not running; schedules an
awaited `put` via `create_task` when an event loop is running (on the
unbounded queue this appends immediately; on a full bounded queue the put
would wait — the producer itself never blocks); otherwise calls
`put_nowait`, whose `QueueFull` is swallowed by the `except`, silently
discarding the new event. -/

structure PyQueue (α : Type) where
  items : List α
  maxsize : ℕ   -- 0 = unbounded, as for `asyncio.Queue()`

def PyQueue.isFull (q : PyQueue α) : Bool :=
  q.maxsize ≠ 0 && q.maxsize ≤ q.items.length

inductive QueueOutcome where
  | queued            -- the event is in the queue
  | putPending        -- `create_task(put)` parked awaiting space
  | droppedNewest     -- `put_nowait` raised `QueueFull`; the event is gone
  | skippedNotRunning -- `self._running` is false
  deriving DecidableEq

/-- `StreamingDashboard._queue_event` as a state transformer on the queue.
`running` is `self._running`; `loopRunning` is
`asyncio.get_event_loop().is_running()`. -/
def queueEvent (running loopRunning : Bool) (q : PyQueue α) (e : α) :
    PyQueue α × QueueOutcome :=
  if !running then (q, .skippedNotRunning)
  else if loopRunning then
    if q.isFull then (q, .putPending)
    else ({ q with items := q.items ++ [e] }, .queued)
  else
    if q.isFull then (q, .droppedNewest)
    else ({ q with items := q.items ++ [e] }, .queued)

/-! ### Ring-buffer histories (lines 65-174, 282-302)

Each updating method appends its new entry and then truncates with
`history = history[-cap:]` when the length exceeds the cap (1000, or 100 for
the histogram).  Entry payloads that the claims never inspect are abstracted
to `ℕ` identifiers. -/

/-- A log entry: message, level, timestamp. -/
structure LogEntry where
  message : String
  level : String
  ts : ℕ

/-- The dashboard state: current status plus the histories. -/
structure DashState where
  benchmarkStatus : BStatus
  metricsHistory : List ℕ
  logsHistory : List LogEntry
  statusHistory : List (BStatus × ℕ)
  scatterHistory : List ℕ
  histogramHistory : List ℕ
  historicalData : List ℕ

/-- `l[-cap:]`. -/
def takeLast (cap : ℕ) (l : List α) : List α := l.drop (l.length - cap)

/-- `if len(h) > cap: h = h[-cap:]`. -/
def trimTo (cap : ℕ) (l : List α) : List α :=
  if l.length > cap then takeLast cap l else l

/-- The dashboard operations that the claims range over.  `updateScatter`
carries `none` when `ui_scatter_plot_metrics` is falsy (the method then
stores and emits nothing); `otherEvent` stands for the methods that enqueue
an event without touching any history (progress bars, run tracking, resets,
RPS plots...). -/
inductive DashOp where
  | updateStatus (kwargs : List (String × JVal)) (ts : ℕ)
  | updateMetrics (e : ℕ)
  | updateHistogram (e : ℕ)
  | updateScatter (v : Option ℕ)
  | addLog (message level : String) (ts : ℕ)
  | addHistorical (e : ℕ)
  | otherEvent

/-- One dashboard method call acting on the state (histories and status;
event enqueueing is modelled separately by `queueEvent`). -/
def dashStep (s : DashState) : DashOp → DashState
  | .updateStatus kwargs ts =>
    let st := updateBenchmarkStatusFields s.benchmarkStatus kwargs
    { s with benchmarkStatus := st
             statusHistory := trimTo 1000 (s.statusHistory ++ [(st, ts)]) }
  | .updateMetrics e =>
    { s with metricsHistory := trimTo 1000 (s.metricsHistory ++ [e]) }
  | .updateHistogram e =>
    { s with histogramHistory := trimTo 100 (s.histogramHistory ++ [e]) }
  | .updateScatter v =>
    match v with
    | none => s
    | some e => { s with scatterHistory := trimTo 1000 (s.scatterHistory ++ [e]) }
  | .addLog message level ts =>
    { s with logsHistory :=
        trimTo 1000 (s.logsHistory ++ [{ message := message, level := level, ts := ts }]) }
  | .addHistorical e =>
    { s with historicalData := s.historicalData ++ [e] }
  | .otherEvent => s

/-- The dashboard state right after `__init__` (all histories empty). -/
def DashState.init (st0 : BStatus) : DashState :=
  { benchmarkStatus := st0
    metricsHistory := []
    logsHistory := []
    statusHistory := []
    scatterHistory := []
    histogramHistory := []
    historicalData := [] }

/-! ### `update_iteration_rps_vs_latency` (lines 188-216) -/

/-- One `Stats` block as probed by the dashboard; `mean` may be `None`. -/
structure StatBlock where
  mean : Option ℚ

/-- The `aggregated_metrics.stats` record; a `none` field collapses both "no
such attribute" and "attribute is None", which the source treats alike
(`hasattr(stats, 'ttft') and stats.ttft`). -/
structure AggStats where
  ttft : Option StatBlock
  output_latency : Option StatBlock
  e2e_latency : Option StatBlock

/-- `hasattr(stats, f) and stats.f and stats.f.mean` for one block. -/
def blockMeanTruthy : Option StatBlock → Bool
  | some b => match b.mean with | some q => q ≠ 0 | none => false
  | none => false

def blockMeanVal : Option StatBlock → ℚ
  | some b => b.mean.getD 0
  | none => 0

/-- The body computing `e2e_latency` (lines 195-206): starts at 0, then the
`if/elif/elif` chain over `ttft`, `output_latency`, `e2e_latency`.  The
outer `Option` is `aggregated_metrics and hasattr(aggregated_metrics,
'stats')`. -/
def selectIterationLatency (agg : Option AggStats) : ℚ :=
  match agg with
  | none => 0
  | some stats =>
    if blockMeanTruthy stats.ttft then blockMeanVal stats.ttft
    else if blockMeanTruthy stats.output_latency then blockMeanVal stats.output_latency
    else if blockMeanTruthy stats.e2e_latency then blockMeanVal stats.e2e_latency
    else 0

/-- `update_iteration_rps_vs_latency`, returning the list of
`rps_vs_latency` events it emits (via `update_rps_vs_latency_plot`) as
`(rps, e2e_latency)` pairs. -/
def updateIterationRpsVsLatency (agg : Option AggStats)
    (runTime : ℚ) (totalRequests : ℤ) : List (ℚ × ℚ) :=
  if runTime > 0 ∧ totalRequests > 0 then
    let rps : ℚ := (totalRequests : ℚ) / runTime
    let lat := selectIterationLatency agg
    if lat > 0 then [(rps, lat)] else []
  else []

/-! ## The WebSocket endpoint
(`genai_bench/streaming/streaming_server.py`, lines 163-183)

After `accept`, the handler sequentially sends a `status` event with
`benchmark_status.__dict__`, then a `historical_data` event with
`get_complete_history()`, and only then enters the event loop that forwards
bus events.  `wsSessionTrace` is the resulting send trace for a session in
which the loop forwards the given bus events (client messages and
heartbeats aside). -/

/-- `StreamingDashboard.get_complete_history` (lines 308-318). -/
structure CompleteHistory where
  metrics_history : List ℕ
  logs_history : List LogEntry
  status_history : List (BStatus × ℕ)
  scatter_history : List ℕ
  histogram_history : List ℕ
  historical_data : List ℕ
  current_status : BStatus

def getCompleteHistory (d : DashState) : CompleteHistory :=
  { metrics_history := d.metricsHistory
    logs_history := d.logsHistory
    status_history := d.statusHistory
    scatter_history := d.scatterHistory
    histogram_history := d.histogramHistory
    historical_data := d.historicalData
    current_status := d.benchmarkStatus }

/-- Payload of one WebSocket send. -/
inductive WsPayload where
  | statusData (s : BStatus)
  | historyData (h : CompleteHistory)
  | liveData (e : ℕ)

structure WsEvent where
  eventType : String
  payload : WsPayload

/-- The send trace of one `/ws` session against dashboard state `d`, where
the event loop subsequently forwards `busEvents` (each a
`(event_type, payload)` pair drawn from the dashboard queue). -/
def wsSessionTrace (d : DashState) (busEvents : List (String × ℕ)) :
    List WsEvent :=
  { eventType := "status", payload := .statusData d.benchmarkStatus } ::
  { eventType := "historical_data", payload := .historyData (getCompleteHistory d) } ::
  busEvents.map (fun e => { eventType := e.1, payload := .liveData e.2 })

/-- The cap invariant on one dashboard state. -/
def HistoryBounds (s : DashState) : Prop :=
  s.metricsHistory.length ≤ 1000 ∧ s.logsHistory.length ≤ 1000 ∧
  s.statusHistory.length ≤ 1000 ∧ s.scatterHistory.length ≤ 1000 ∧
  s.histogramHistory.length ≤ 100

/-- Proof-side invariant of the streaming parser state: `tokens_received`
stays numeric (so `+= 1` cannot raise) and any captured TTFT is a wall-clock
reading. -/
def ParserInv (clock : ℕ → ℚ) (st : PState) : Prop :=
  numLike st.tokensReceived = true ∧
  (st.timeAtFirstToken = none ∨ ∃ i, st.timeAtFirstToken = some (clock i))

/-! # Theorems -/

/-- C4 counterexample: the claim says the executor *never* raises, but an
invocation whose aiohttp session was never initialized raises a
`RuntimeError` before any request is attempted. -/
theorem sendRequestAsync_raises_without_session :
    sendRequestAsync false (.exn "connection refused") =
      .error "aiohttp session not initialized. Call on_start() first." := rfl

/-- C4 (amended): provided the aiohttp session has been initialized, the
executor never raises; on HTTP 200 it returns the parse strategy's result,
on non-200 it returns the drained body as the error message with the HTTP
status, and on any exception during the request it returns status -1 with
the exception text. -/
theorem sendRequestAsync_spec (o : RequestOutcome) :
    (∃ r, sendRequestAsync true o = .ok r) ∧
    (∀ m, o = .exn m → sendRequestAsync true o =
      .ok { statusCode := .num (-1), errorMessage := some (.str m) }) ∧
    (∀ status drain r, o = .response status drain (.ok r) → status = 200 →
      sendRequestAsync true o = .ok r) ∧
    (∀ status body parsed, o = .response status (.ok body) parsed → status ≠ 200 →
      sendRequestAsync true o =
        .ok { statusCode := .num status, errorMessage := some (.str body) }) ∧
    (∀ status drain m, o = .response status drain (.error m) → status = 200 →
      sendRequestAsync true o =
        .ok { statusCode := .num (-1), errorMessage := some (.str m) }) := by
  refine ⟨?_, ?_, ?_, ?_, ?_⟩
  · cases o with
    | exn m => exact ⟨_, rfl⟩
    | response status drain parsed =>
      by_cases h : status = 200
      · cases parsed with
        | ok r => exact ⟨r, by simp [sendRequestAsync, h]⟩
        | error m =>
          exact ⟨{ statusCode := .num (-1), errorMessage := some (.str m) },
            by simp [sendRequestAsync, h]⟩
      · cases drain with
        | ok body =>
          exact ⟨{ statusCode := .num status, errorMessage := some (.str body) },
            by simp [sendRequestAsync, h]⟩
        | error m =>
          exact ⟨{ statusCode := .num (-1), errorMessage := some (.str m) },
            by simp [sendRequestAsync, h]⟩
  · rintro m rfl; rfl
  · rintro status drain r rfl rfl; simp [sendRequestAsync]
  · rintro status body parsed rfl h
    cases parsed <;> simp [sendRequestAsync, h]
  · rintro status drain m rfl rfl; simp [sendRequestAsync]

/-- C4 witness: the amended theorem applied at a concrete outcome. -/
theorem sendRequestAsync_spec_witness :
    sendRequestAsync true (.exn "SSL handshake failed") =
      .ok { statusCode := .num (-1),
            errorMessage := some (.str "SSL handshake failed") } :=
  (sendRequestAsync_spec (.exn "SSL handshake failed")).2.1 _ rfl

/-- C5 counterexample: a completed cell whose aggregated metrics expose no
stats yields *no* `rps_vs_latency` event, refuting "emits exactly one
`rps_vs_latency` event for that cell". -/
theorem updateIterationRps_no_event_without_stats :
    updateIterationRpsVsLatency none 10 100 = [] := rfl

/-- C5 (amended): for a completed cell, the dashboard emits exactly one
`rps_vs_latency` event with `rps = total_requests / run_time` and the
latency proxy selected by the preference order `ttft.mean`,
`output_latency.mean`, `e2e_latency.mean` — *provided* `run_time` and
`total_requests` are positive and that selection is positive; otherwise it
emits no event. -/
theorem updateIterationRps_spec (agg : Option AggStats) (runTime : ℚ)
    (totalRequests : ℤ) :
    (runTime > 0 → totalRequests > 0 → selectIterationLatency agg > 0 →
      updateIterationRpsVsLatency agg runTime totalRequests =
        [((totalRequests : ℚ) / runTime, selectIterationLatency agg)]) ∧
    (¬ (runTime > 0 ∧ totalRequests > 0 ∧ selectIterationLatency agg > 0) →
      updateIterationRpsVsLatency agg runTime totalRequests = []) ∧
    (updateIterationRpsVsLatency agg runTime totalRequests).length ≤ 1 ∧
    (∀ stats, agg = some stats → blockMeanTruthy stats.ttft →
      selectIterationLatency agg = blockMeanVal stats.ttft) ∧
    (∀ stats, agg = some stats → ¬ blockMeanTruthy stats.ttft →
      blockMeanTruthy stats.output_latency →
      selectIterationLatency agg = blockMeanVal stats.output_latency) ∧
    (∀ stats, agg = some stats → ¬ blockMeanTruthy stats.ttft →
      ¬ blockMeanTruthy stats.output_latency →
      blockMeanTruthy stats.e2e_latency →
      selectIterationLatency agg = blockMeanVal stats.e2e_latency) := by
  refine ⟨?_, ?_, ?_, ?_, ?_, ?_⟩
  · intro h1 h2 h3
    simp [updateIterationRpsVsLatency, h1, h2, h3]
  · intro h
    unfold updateIterationRpsVsLatency
    by_cases h1 : runTime > 0 <;> by_cases h2 : totalRequests > 0 <;>
      by_cases h3 : selectIterationLatency agg > 0 <;>
      simp_all
  · unfold updateIterationRpsVsLatency
    split
    · simp only []
      split <;> simp
    · simp
  · rintro stats rfl h; simp [selectIterationLatency, h]
  · rintro stats rfl h1 h2; simp [selectIterationLatency, h1, h2]
  · rintro stats rfl h1 h2 h3; simp [selectIterationLatency, h1, h2, h3]

/-- C5 witness (Scenario F): 100 requests in 10 s with `ttft.mean = 0.2`
yields exactly one event `(10, 0.2)`. -/
theorem updateIterationRps_spec_witness :
    updateIterationRpsVsLatency
      (some { ttft := some { mean := some (1/5) },
              output_latency := none, e2e_latency := none }) 10 100 =
      [(10, 1/5)] := by
  have h := (updateIterationRps_spec
    (some { ttft := some { mean := some (1/5) },
            output_latency := none, e2e_latency := none }) 10 100).1
    (by norm_num) (by norm_num) (by norm_num [selectIterationLatency, blockMeanTruthy, blockMeanVal])
  rw [h]
  norm_num [selectIterationLatency, blockMeanTruthy, blockMeanVal]

/-- C6 counterexample: with the dashboard running but no event loop, a full
queue makes `_queue_event` discard the *newest* event and leave the queue —
oldest entries included — unchanged, the opposite of the claimed
drop-oldest policy; no drop counter exists, only a debug log. -/
theorem queueEvent_drops_newest_when_full :
    (queueEvent true false (⟨[0, 1], 2⟩ : PyQueue ℕ) 2).1.items = [0, 1] ∧
    (queueEvent true false (⟨[0, 1], 2⟩ : PyQueue ℕ) 2).2 = .droppedNewest := by
  exact ⟨rfl, rfl⟩

/-- C6 (amended): `_queue_event` never blocks the producer (it is a total
state transformer); when the dashboard is not running, or `put_nowait` finds
the queue full, the *newly produced* event is silently discarded (the queue
is unchanged and no counter is kept); otherwise the event is appended at the
tail.  A full queue on the running-event-loop path leaves the queue
unchanged too (the scheduled `put` merely parks). -/
theorem queueEvent_spec {α : Type} (running loopRunning : Bool)
    (q : PyQueue α) (e : α) :
    ((queueEvent running loopRunning q e).1 = q ∨
      (queueEvent running loopRunning q e).1.items = q.items ++ [e]) ∧
    (running = false → queueEvent running loopRunning q e = (q, .skippedNotRunning)) ∧
    (running = true → loopRunning = false → q.isFull = true →
      queueEvent running loopRunning q e = (q, .droppedNewest)) ∧
    (running = true → q.isFull = false →
      (queueEvent running loopRunning q e).1.items = q.items ++ [e]) := by
  refine ⟨?_, ?_, ?_, ?_⟩
  · unfold queueEvent
    split
    · exact Or.inl rfl
    · split <;> split <;> simp
  · rintro rfl; simp [queueEvent]
  · rintro rfl rfl h; simp [queueEvent, h]
  · rintro rfl h; cases loopRunning <;> simp [queueEvent, h]

/-- C6 witness: the amended theorem applied at the concrete full queue. -/
theorem queueEvent_spec_witness :
    queueEvent true false (⟨[0, 1], 2⟩ : PyQueue ℕ) 2 =
      ((⟨[0, 1], 2⟩ : PyQueue ℕ), .droppedNewest) :=
  (queueEvent_spec true false ⟨[0, 1], 2⟩ 2).2.2.1 rfl rfl rfl

/-- C8: on every `/ws` session, the first sent event is `status` carrying
the current `BenchmarkStatus`, the second is `historical_data` carrying the
complete history (all ring buffers plus current status), and live bus events
are forwarded only after these two. -/
theorem wsSessionTrace_spec (d : DashState) (busEvents : List (String × ℕ)) :
    (wsSessionTrace d busEvents).take 2 =
      [{ eventType := "status", payload := .statusData d.benchmarkStatus },
       { eventType := "historical_data",
         payload := .historyData (getCompleteHistory d) }] ∧
    (wsSessionTrace d busEvents).drop 2 =
      busEvents.map (fun e => { eventType := e.1, payload := .liveData e.2 }) := by
  exact ⟨rfl, rfl⟩

/-! ### Ring-buffer lemmas (C7) -/

theorem takeLast_eq_self {α : Type} {cap : ℕ} {l : List α}
    (h : l.length ≤ cap) : takeLast cap l = l := by
  unfold takeLast
  have : l.length - cap = 0 := by omega
  simp [this]

theorem trimTo_eq_takeLast {α : Type} (cap : ℕ) (l : List α) :
    trimTo cap l = takeLast cap l := by
  unfold trimTo
  split
  · rfl
  · rw [takeLast_eq_self (by omega)]

theorem length_trimTo_le {α : Type} (cap : ℕ) (l : List α) :
    (trimTo cap l).length ≤ cap := by
  unfold trimTo
  split
  · simp only [takeLast, List.length_drop]
    omega
  · omega

theorem dashStep_preserves_bounds (s : DashState) (op : DashOp)
    (h : HistoryBounds s) : HistoryBounds (dashStep s op) := by
  obtain ⟨h1, h2, h3, h4, h5⟩ := h
  cases op with
  | updateStatus kwargs ts =>
    exact ⟨h1, h2, length_trimTo_le _ _, h4, h5⟩
  | updateMetrics e => exact ⟨length_trimTo_le _ _, h2, h3, h4, h5⟩
  | updateHistogram e => exact ⟨h1, h2, h3, h4, length_trimTo_le _ _⟩
  | updateScatter v =>
    cases v with
    | none => exact ⟨h1, h2, h3, h4, h5⟩
    | some e => exact ⟨h1, h2, h3, length_trimTo_le _ _, h5⟩
  | addLog m l ts => exact ⟨h1, length_trimTo_le _ _, h3, h4, h5⟩
  | addHistorical e => exact ⟨h1, h2, h3, h4, h5⟩
  | otherEvent => exact ⟨h1, h2, h3, h4, h5⟩

theorem foldl_dashStep_bounds (ops : List DashOp) :
    ∀ s : DashState, HistoryBounds s → HistoryBounds (ops.foldl dashStep s) := by
  induction ops with
  | nil => intro s h; exact h
  | cons op rest ih =>
    intro s h
    exact ih _ (dashStep_preserves_bounds s op h)

/-- C7: starting from a fresh dashboard, after any sequence of dashboard
operations the metrics, logs, status and scatter histories hold at most 1000
entries and the histogram history at most 100; and each history-updating
operation appends its new entry, retaining exactly the most recent `cap`
entries (`history[-cap:]`). -/
theorem dashHistories_spec :
    (∀ (st0 : BStatus) (ops : List DashOp),
      HistoryBounds (ops.foldl dashStep (DashState.init st0))) ∧
    (∀ (s : DashState) (e : ℕ),
      (dashStep s (.updateMetrics e)).metricsHistory =
        takeLast 1000 (s.metricsHistory ++ [e])) ∧
    (∀ (s : DashState) (e : ℕ),
      (dashStep s (.updateHistogram e)).histogramHistory =
        takeLast 100 (s.histogramHistory ++ [e])) ∧
    (∀ (s : DashState) (e : ℕ),
      (dashStep s (.updateScatter (some e))).scatterHistory =
        takeLast 1000 (s.scatterHistory ++ [e])) ∧
    (∀ (s : DashState) (m l : String) (ts : ℕ),
      (dashStep s (.addLog m l ts)).logsHistory =
        takeLast 1000 (s.logsHistory ++ [{ message := m, level := l, ts := ts }])) ∧
    (∀ (s : DashState) (kwargs : List (String × JVal)) (ts : ℕ),
      (dashStep s (.updateStatus kwargs ts)).statusHistory =
        takeLast 1000 (s.statusHistory ++
          [(updateBenchmarkStatusFields s.benchmarkStatus kwargs, ts)])) := by
  refine ⟨?_, ?_, ?_, ?_, ?_, ?_⟩
  · intro st0 ops
    exact foldl_dashStep_bounds ops _ (by simp [DashState.init, HistoryBounds])
  · intro s e; simp [dashStep, trimTo_eq_takeLast]
  · intro s e; simp [dashStep, trimTo_eq_takeLast]
  · intro s e; simp [dashStep, trimTo_eq_takeLast]
  · intro s m l ts; simp [dashStep, trimTo_eq_takeLast]
  · intro s kwargs ts; simp [dashStep, trimTo_eq_takeLast]

/-! ### `update_benchmark_status` field-update lemmas (C10) -/

theorem getStatusField_isSome_iff (s : BStatus) (k : String) :
    (getStatusField s k).isSome = true ↔ k ∈ statusFieldNames := by
  unfold getStatusField
  split <;> simp_all [statusFieldNames]

theorem getStatusField_setStatusField_ne (s : BStatus) (k : String) (v : JVal)
    (f : String) (h : f ≠ k) :
    getStatusField (setStatusField s k v) f = getStatusField s f := by
  unfold setStatusField
  split <;> (unfold getStatusField; split <;> simp_all)

theorem getStatusField_step_ne (s : BStatus) (kv : String × JVal) (f : String)
    (h : kv.1 ≠ f) :
    getStatusField
      (if (getStatusField s kv.1).isSome then setStatusField s kv.1 kv.2 else s) f =
      getStatusField s f := by
  split
  · exact getStatusField_setStatusField_ne s kv.1 kv.2 f (fun hf => h hf.symm)
  · rfl

/-- `(getStatusField s k).isSome` does not depend on `s`. -/
theorem getStatusField_isSome_congr (s t : BStatus) (k : String) :
    (getStatusField s k).isSome = (getStatusField t k).isSome := by
  unfold getStatusField
  split <;> simp_all

/-- C10: `update_benchmark_status` mutates only the fields whose names are
passed and exist on `BenchmarkStatus`: keyword arguments with unknown names
are silently ignored (dropping them changes nothing), and every field not
named in the call keeps its value. -/
theorem updateBenchmarkStatusFields_spec (s : BStatus)
    (kwargs : List (String × JVal)) :
    (updateBenchmarkStatusFields s kwargs =
      updateBenchmarkStatusFields s
        (kwargs.filter (fun kv => decide (kv.1 ∈ statusFieldNames)))) ∧
    (∀ f, (∀ kv ∈ kwargs, kv.1 ≠ f) →
      getStatusField (updateBenchmarkStatusFields s kwargs) f =
        getStatusField s f) := by
  constructor
  · induction kwargs generalizing s with
    | nil => rfl
    | cons kv rest ih =>
      by_cases hk : kv.1 ∈ statusFieldNames
      · have hsome : (getStatusField s kv.1).isSome = true :=
          (getStatusField_isSome_iff s kv.1).mpr hk
        simp only [updateBenchmarkStatusFields, List.foldl_cons, List.filter_cons] at *
        rw [if_pos hsome]
        simp only [hk]
        rw [if_pos (by simp)]
        simp only [List.foldl_cons]
        rw [if_pos hsome]
        exact ih _
      · have hsome : ¬ (getStatusField s kv.1).isSome = true := by
          rw [getStatusField_isSome_iff]; exact hk
        simp only [updateBenchmarkStatusFields, List.foldl_cons, List.filter_cons] at *
        rw [if_neg hsome]
        simp only [hk]
        rw [if_neg (by simp)]
        exact ih _
  · induction kwargs generalizing s with
    | nil => intro f _; rfl
    | cons kv rest ih =>
      intro f hf
      have hne : kv.1 ≠ f := hf kv (List.mem_cons_self _ _)
      simp only [updateBenchmarkStatusFields, List.foldl_cons]
      have := ih (if (getStatusField s kv.1).isSome then setStatusField s kv.1 kv.2 else s)
        f (fun kv2 h2 => hf kv2 (List.mem_cons_of_mem _ h2))
      rw [updateBenchmarkStatusFields] at this
      rw [this]
      exact getStatusField_step_ne s kv f hne

/-- C10 witness: updating `status` and an unknown key leaves
`current_scenario` untouched. -/
theorem updateBenchmarkStatusFields_spec_witness :
    getStatusField
      (updateBenchmarkStatusFields
        ⟨.str "idle", .str "sc", .num 0, .num 0, .num 0, .num 0, .num 0,
         .null, .null, .null, .null, .null⟩
        [("status", .str "running"), ("bogus_field", .num 1)])
      "current_scenario" = some (.str "sc") := by
  rw [(updateBenchmarkStatusFields_spec
      ⟨.str "idle", .str "sc", .num 0, .num 0, .num 0, .num 0, .num 0,
       .null, .null, .null, .null, .null⟩
      [("status", .str "running"), ("bogus_field", .num 1)]).2
    "current_scenario" ?_]
  · rfl
  · intro kv hkv
    simp only [List.mem_cons, List.not_mem_nil, or_false] at hkv
    rcases hkv with rfl | rfl <;> decide

/-! ### Fabricated TTFT in the non-streaming parsers (C9) -/

theorem errorBranch_some_errorMessage (d : JVal) (m : String) (r : UserResp)
    (h : errorBranch d m = some (some r)) : ∃ v, r.errorMessage = some v := by
  unfold errorBranch at h
  rcases hin : JVal.pyIn "error" d with _ | b
  · simp [Option.bind_eq_bind, hin] at h
  · simp only [Option.bind_eq_bind] at h
    rw [hin] at h
    cases b with
    | false => simp at h
    | true =>
      simp only [Option.some_bind] at h
      simp only [if_true] at h
      rcases hs : JVal.pySubscr d "error" with _ | ev
      · simp [hs] at h
      · simp only [hs, Option.some_bind] at h
        rcases hc : JVal.pyGet ev "code" (.num (-1)) with _ | code
        · simp [hc] at h
        · simp only [hc, Option.some_bind] at h
          rcases hm : JVal.pyGet ev "message" (.str m) with _ | msg
          · simp [hm] at h
          · simp only [hm, Option.some_bind, Option.some.injEq] at h
            exact ⟨msg, by rw [← h]⟩

theorem parseNonStreaming_shape (data : Option JVal) (start : ℚ)
    (npf : Option ℤ) (endC : ℚ) :
    (parseNonStreamingResponseAsync data start npf endC).statusCode = .num 200 ∧
    (parseNonStreamingResponseAsync data start npf endC).errorMessage = none ∧
    (parseNonStreamingResponseAsync data start npf endC).timeAtFirstToken =
      some (start + 1/1000) ∨
    (∃ v, (parseNonStreamingResponseAsync data start npf endC).errorMessage = some v) := by
  cases data with
  | none => exact Or.inr ⟨_, rfl⟩
  | some d =>
    unfold parseNonStreamingResponseAsync
    rcases he : errorBranch d "Unknown error" with _ | o
    · exact Or.inr ⟨.str "Error parsing response", by simp [he, exnResp]⟩
    · rcases o with _ | r
      · rcases hc : JVal.pyGet d "choices" (.arr []) with _ | choices
        · exact Or.inr ⟨.str "Error parsing response", by simp [he, hc, exnResp]⟩
        · by_cases hct : choices.pyTruthy
          · rcases h0 : JVal.pyIndex0 choices with _ | choice
            · exact Or.inr ⟨.str "Error parsing response", by simp [he, hc, hct, h0, exnResp]⟩
            · rcases hm : JVal.pyGet choice "message" (.obj []) with _ | msg
              · exact Or.inr ⟨.str "Error parsing response", by simp [he, hc, hct, h0, hm, exnResp]⟩
              · rcases hg : JVal.pyGet msg "content" (.str "") with _ | g
                · exact Or.inr ⟨.str "Error parsing response", by simp [he, hc, hct, h0, hm, hg, exnResp]⟩
                · rcases hf : JVal.pyGet choice "finish_reason" .null with _ | fr
                  · exact Or.inr ⟨.str "Error parsing response", by simp [he, hc, hct, h0, hm, hg, hf, exnResp]⟩
                  · rcases hu : JVal.pyGet d "usage" (.obj []) with _ | usage
                    · exact Or.inr ⟨.str "Error parsing response", by simp [he, hc, hct, h0, hm, hg, hf, hu, exnResp]⟩
                    · rcases ht : JVal.pyGet usage "completion_tokens" (.num 0) with _ | tk
                      · exact Or.inr
                          ⟨.str "Error parsing response", by simp [he, hc, hct, h0, hm, hg, hf, hu, ht, exnResp]⟩
                      · rcases hp : JVal.pyGet usage "prompt_tokens"
                            (match npf with | some n => .num n | none => .null) with _ | pt
                        · exact Or.inr
                            ⟨.str "Error parsing response", by simp [he, hc, hct, h0, hm, hg, hf, hu, ht, hp, exnResp]⟩
                        · exact Or.inl
                            (by simp [he, hc, hct, h0, hm, hg, hf, hu, ht, hp])
          · rcases hu : JVal.pyGet d "usage" (.obj []) with _ | usage
            · exact Or.inr ⟨.str "Error parsing response", by simp [he, hc, hct, hu, exnResp]⟩
            · rcases ht : JVal.pyGet usage "completion_tokens" (.num 0) with _ | tk
              · exact Or.inr ⟨.str "Error parsing response", by simp [he, hc, hct, hu, ht, exnResp]⟩
              · rcases hp : JVal.pyGet usage "prompt_tokens"
                    (match npf with | some n => .num n | none => .null) with _ | pt
                · exact Or.inr ⟨.str "Error parsing response", by simp [he, hc, hct, hu, ht, hp, exnResp]⟩
                · exact Or.inl (by simp [he, hc, hct, hu, ht, hp])
      · obtain ⟨v, hv⟩ := errorBranch_some_errorMessage d "Unknown error" r he
        exact Or.inr ⟨v, by simp [he, hv]⟩

theorem parseEmbeddings_shape (data : Option JVal) (start endC : ℚ) :
    (parseEmbeddingsResponseAsync data start endC).statusCode = .num 200 ∧
    (parseEmbeddingsResponseAsync data start endC).errorMessage = none ∧
    (parseEmbeddingsResponseAsync data start endC).timeAtFirstToken =
      some (start + 1/1000) ∨
    (∃ v, (parseEmbeddingsResponseAsync data start endC).errorMessage = some v) := by
  cases data with
  | none => exact Or.inr ⟨_, rfl⟩
  | some d =>
    unfold parseEmbeddingsResponseAsync
    rcases he : errorBranch d "Unknown error" with _ | o
    · exact Or.inr ⟨.str "Error parsing embeddings response", by simp [he, exnResp]⟩
    · rcases o with _ | r
      · rcases hd : JVal.pyGet d "data" (.arr []) with _ | em
        · exact Or.inr ⟨.str "Error parsing embeddings response", by simp [he, hd, exnResp]⟩
        · rcases hl : pyMapEmbedding em with _ | lst
          · exact Or.inr ⟨.str "Error parsing embeddings response", by simp [he, hd, hl, exnResp]⟩
          · exact Or.inl (by simp [he, hd, hl])
      · obtain ⟨v, hv⟩ := errorBranch_some_errorMessage d "Unknown error" r he
        exact Or.inr ⟨v, by simp [he, hv]⟩

/-- C9: every non-streaming chat response, embeddings response, and
plain-text response that parses successfully gets a *fabricated*
`time_at_first_token` of exactly `start_time + 0.001`; consequently, when
the response completed in under one millisecond
(`end_time < start_time + 0.001`), the recorded TTFT exceeds `end_time`. -/
theorem fabricatedTtft_spec :
    (∀ (data : Option JVal) (start : ℚ) (npf : Option ℤ) (endC : ℚ),
      (parseNonStreamingResponseAsync data start npf endC).errorMessage = none →
      (parseNonStreamingResponseAsync data start npf endC).statusCode = .num 200 ∧
      (parseNonStreamingResponseAsync data start npf endC).timeAtFirstToken =
        some (start + 1/1000) ∧
      (endC < start + 1/1000 →
        ∀ t, (parseNonStreamingResponseAsync data start npf endC).timeAtFirstToken
          = some t → endC < t)) ∧
    (∀ (data : Option JVal) (start endC : ℚ),
      (parseEmbeddingsResponseAsync data start endC).errorMessage = none →
      (parseEmbeddingsResponseAsync data start endC).statusCode = .num 200 ∧
      (parseEmbeddingsResponseAsync data start endC).timeAtFirstToken =
        some (start + 1/1000) ∧
      (endC < start + 1/1000 →
        ∀ t, (parseEmbeddingsResponseAsync data start endC).timeAtFirstToken
          = some t → endC < t)) ∧
    (∀ (text : Option String) (start : ℚ) (npf : Option ℤ) (endC : ℚ)
        (tokenLen : JVal → ℤ),
      (parsePlainTextResponseAsync text start npf endC tokenLen).errorMessage = none →
      (parsePlainTextResponseAsync text start npf endC tokenLen).statusCode = .num 200 ∧
      (parsePlainTextResponseAsync text start npf endC tokenLen).timeAtFirstToken =
        some (start + 1/1000) ∧
      (endC < start + 1/1000 →
        ∀ t, (parsePlainTextResponseAsync text start npf endC tokenLen).timeAtFirstToken
          = some t → endC < t)) := by
  refine ⟨?_, ?_, ?_⟩
  · intro data start npf endC hnone
    rcases parseNonStreaming_shape data start npf endC with ⟨h1, _, h3⟩ | ⟨v, hv⟩
    · refine ⟨h1, h3, ?_⟩
      intro hend t ht
      rw [h3, Option.some.injEq] at ht
      linarith
    · rw [hnone] at hv; cases hv
  · intro data start endC hnone
    rcases parseEmbeddings_shape data start endC with ⟨h1, _, h3⟩ | ⟨v, hv⟩
    · refine ⟨h1, h3, ?_⟩
      intro hend t ht
      rw [h3, Option.some.injEq] at ht
      linarith
    · rw [hnone] at hv; cases hv
  · intro text start npf endC tokenLen hnone
    cases text with
    | none => cases hnone
    | some t =>
      refine ⟨rfl, rfl, ?_⟩
      intro hend u hu
      simp only [parsePlainTextResponseAsync, Option.some.injEq] at hu
      linarith

/-- C9 witness: a concrete successful chat/embeddings/plain-text parse, with
`end_time` half a millisecond after `start_time`: TTFT lands after the
response ended. -/
theorem fabricatedTtft_spec_witness :
    (parseNonStreamingResponseAsync (some (.obj [])) 10 none (10 + 1/2000)).timeAtFirstToken
      = some (10 + 1/1000) ∧
    (parseEmbeddingsResponseAsync (some (.obj [])) 10 (10 + 1/2000)).timeAtFirstToken
      = some (10 + 1/1000) ∧
    (parsePlainTextResponseAsync (some "ok") 10 none (10 + 1/2000)
        (fun _ => 1)).timeAtFirstToken = some (10 + 1/1000) ∧
    (10 + 1/2000 : ℚ) < 10 + 1/1000 := by
  refine ⟨?_, ?_, ?_, by norm_num⟩
  · exact ((fabricatedTtft_spec.1 (some (.obj [])) 10 none (10 + 1/2000)) rfl).2.1
  · exact ((fabricatedTtft_spec.2.1 (some (.obj [])) 10 (10 + 1/2000)) rfl).2.1
  · exact ((fabricatedTtft_spec.2.2 (some "ok") 10 none (10 + 1/2000) (fun _ => 1)) rfl).2.1

/-! ### TTFT capture on empty `choices` (C1) -/

/-- C1 (code bug): the source captures TTFT at the first decoded frame whose
payload merely *contains* a `"choices"` key (`async_openai_user.py`, line
158: `if time_at_first_token is None and ("choices" in data)`), not the
first frame with a non-empty `choices` array.  Feeding the repository's own
test stream — an empty-`choices` frame followed by a populated one — the
parser records TTFT at frame index 0, the empty-`choices` frame; and a
stream consisting *only* of the empty-`choices` frame still ends with TTFT
set and status 200, contradicting the claim (and the intent documented in
`tests/user/test_async_openai_user.py::test_ttft_not_captured_on_empty_choices_async`)
that such frames must not set TTFT and that TTFT is set iff a frame with
non-empty `choices` was observed. -/
theorem ttft_set_by_empty_choices_frame :
    (observedMessages []
        ["data: \x7b\"choices\":[]\x7d\n\n".toList,
         "data: \x7b\"choices\":[\x7b\"index\":0,\"delta\":\x7b\"role\":\"assistant\"\x7d\x7d]\x7d\n\n".toList]).map
      hasPopulatedChoices = [false, true] ∧
    (observedMessages []
        ["data: \x7b\"choices\":[]\x7d\n\n".toList,
         "data: \x7b\"choices\":[\x7b\"index\":0,\"delta\":\x7b\"role\":\"assistant\"\x7d\x7d]\x7d\n\n".toList]).map
      hasChoicesKey = [true, true] ∧
    (parseStreamingFinalState
        ["data: \x7b\"choices\":[]\x7d\n\n".toList,
         "data: \x7b\"choices\":[\x7b\"index\":0,\"delta\":\x7b\"role\":\"assistant\"\x7d\x7d]\x7d\n\n".toList]
        (fun i => mkRat (i + 1) 1)).map PState.ttftMsgIdx = some (some 0) ∧
    (parseStreamingResponseAsync
        ["data: \x7b\"choices\":[]\x7d\n\n".toList,
         "data: \x7b\"choices\":[\x7b\"index\":0,\"delta\":\x7b\"role\":\"assistant\"\x7d\x7d]\x7d\n\n".toList]
        0 none (fun i => mkRat (i + 1) 1) 100).timeAtFirstToken = some 1 ∧
    (parseStreamingResponseAsync ["data: \x7b\"choices\":[]\x7d\n\n".toList]
        0 none (fun i => mkRat (i + 1) 1) 100).timeAtFirstToken = some 1 ∧
    (parseStreamingResponseAsync ["data: \x7b\"choices\":[]\x7d\n\n".toList]
        0 none (fun i => mkRat (i + 1) 1) 100).statusCode = .num 200 := by
  exact ⟨rfl, rfl, rfl, rfl, rfl, rfl⟩

/-! ### Frame-reassembly lemmas (C2) -/

theorem findSplit_some_length {s a b : List Char}
    (h : findSplit s = some (a, b)) : b.length < s.length := by
  induction s generalizing a b with
  | nil => simp [findSplit] at h
  | cons c rest ih =>
    by_cases hp : sseSep.isPrefixOf (c :: rest)
    · rw [findSplit, if_pos hp] at h
      rw [Option.some.injEq, Prod.mk.injEq] at h
      obtain ⟨_, hb⟩ := h
      subst hb
      simp only [List.length_cons, List.length_drop]
      omega
    · rw [findSplit, if_neg hp] at h
      rw [Option.map_eq_some'] at h
      obtain ⟨⟨a', b'⟩, hfs, heq⟩ := h
      rw [Prod.mk.injEq] at heq
      obtain ⟨ha, hb⟩ := heq
      subst hb
      have := ih hfs
      simp only [List.length_cons]
      omega

theorem findSplit_none_segsOf {s : List Char} (h : findSplit s = none) :
    segsOf s = [s] := by
  induction s with
  | nil => simp [segsOf]
  | cons c rest ih =>
    by_cases hp : sseSep.isPrefixOf (c :: rest)
    · rw [findSplit, if_pos hp] at h
      exact Option.noConfusion h
    · rw [findSplit, if_neg hp, Option.map_eq_none'] at h
      rw [segsOf, if_neg hp, ih h]

theorem findSplit_some_segsOf {s a b : List Char}
    (h : findSplit s = some (a, b)) : segsOf s = a :: segsOf b := by
  induction s generalizing a b with
  | nil => simp [findSplit] at h
  | cons c rest ih =>
    by_cases hp : sseSep.isPrefixOf (c :: rest)
    · rw [findSplit, if_pos hp] at h
      rw [Option.some.injEq, Prod.mk.injEq] at h
      obtain ⟨ha, hb⟩ := h
      subst ha
      subst hb
      rw [segsOf, if_pos hp]
      rfl
    · rw [findSplit, if_neg hp, Option.map_eq_some'] at h
      obtain ⟨⟨a', b'⟩, hfs, heq⟩ := h
      rw [Prod.mk.injEq] at heq
      obtain ⟨ha, hb⟩ := heq
      subst ha
      subst hb
      rw [segsOf, if_neg hp, ih hfs]

theorem segsOf_ne_nil (s : List Char) : segsOf s ≠ [] := by
  cases s with
  | nil => simp [segsOf]
  | cons c rest =>
    by_cases hp : sseSep.isPrefixOf (c :: rest)
    · rw [segsOf, if_pos hp]; simp
    · rw [segsOf, if_neg hp]
      cases hseg : segsOf rest <;> simp

theorem extractLoop_segsOf (fuel : ℕ) :
    ∀ s : List Char, s.length < fuel →
      extractLoop fuel s = ((segsOf s).dropLast, (segsOf s).getLastD []) := by
  induction fuel with
  | zero => intro s hs; omega
  | succ n ih =>
    intro s hs
    cases hfs : findSplit s with
    | none =>
      rw [extractLoop, hfs, findSplit_none_segsOf hfs]
      rfl
    | some p =>
      obtain ⟨a, b⟩ := p
      have hlen := findSplit_some_length hfs
      have hrec := ih b (by omega)
      rw [extractLoop, hfs]
      dsimp only
      rw [hrec, findSplit_some_segsOf hfs]
      have hne := segsOf_ne_nil b
      cases hsb : segsOf b with
      | nil => exact absurd hsb hne
      | cons hd tl => simp

/-- C2: `add_chunk` realizes the claim's description — every prefix of the
accumulated buffer ending in `"\n\n"` is extracted as a complete frame
(stripped, empty frames discarded), and a remaining tail that starts with
`"data: "` and whose payload is the `[DONE]` terminator or complete JSON is
additionally emitted with the buffer cleared, the tail staying buffered
otherwise.  In particular, a frame split across two chunks yields exactly
one emitted frame. -/
theorem addChunk_spec :
    (∀ buffer chunk : List Char, addChunk buffer chunk = addChunkSpec buffer chunk) ∧
    (addChunk [] "data: \x7b\"choices\":[\x7b\"index\":0,\"delta\":\x7b\"role\":\"assistant\"".toList
       = ([], "data: \x7b\"choices\":[\x7b\"index\":0,\"delta\":\x7b\"role\":\"assistant\"".toList)) ∧
    (addChunk "data: \x7b\"choices\":[\x7b\"index\":0,\"delta\":\x7b\"role\":\"assistant\"".toList
        "\x7d\x7d]\x7d\n\n".toList
       = (["data: \x7b\"choices\":[\x7b\"index\":0,\"delta\":\x7b\"role\":\"assistant\"\x7d\x7d]\x7d".toList], [])) := by
  refine ⟨?_, rfl, rfl⟩
  intro buffer chunk
  unfold addChunk addChunkSpec tailEmit
  dsimp only
  rw [extractLoop_segsOf ((buffer ++ chunk).length + 1) (buffer ++ chunk) (by omega)]

/-! ### Streaming-parser step lemmas (C3) -/

theorem objGet_isSome_eq_any (kvs : List (String × JVal)) (k : String) :
    (JVal.objGet kvs k).isSome = kvs.any (fun p => p.1 = k) := by
  rw [Bool.eq_iff_iff]
  simp [JVal.objGet, List.find?_isSome, List.any_eq_true]

theorem ttftCapture_obj (clock : ℕ → ℚ) (st : PState) (kvs : List (String × JVal)) :
    ∃ st', ttftCapture clock st (.obj kvs) = some st' ∧
      st'.timeAtFirstToken.isNone =
        (st.timeAtFirstToken.isNone && !dataHasChoicesKey (.obj kvs)) ∧
      (st'.timeAtFirstToken = st.timeAtFirstToken ∨
        st'.timeAtFirstToken = some (clock st.msgIdx)) ∧
      st'.tokensReceived = st.tokensReceived ∧
      st'.numPromptTokens = st.numPromptTokens ∧
      st'.msgIdx = st.msgIdx := by
  unfold ttftCapture
  cases htt : st.timeAtFirstToken with
  | some t => exact ⟨st, rfl, by simp [htt], Or.inl htt, rfl, rfl, rfl⟩
  | none =>
    dsimp only
    simp only [Option.bind_eq_bind, JVal.pyIn, Option.some_bind]
    by_cases hk : kvs.any (fun p => p.1 = "choices") = true
    · rw [if_pos hk]
      refine ⟨_, rfl, ?_, Or.inr rfl, rfl, rfl, rfl⟩
      simp [dataHasChoicesKey, objGet_isSome_eq_any, hk, htt]
    · rw [if_neg hk]
      refine ⟨st, rfl, ?_, Or.inl htt, rfl, rfl, rfl⟩
      simp only [Bool.not_eq_true] at hk
      simp [dataHasChoicesKey, objGet_isSome_eq_any, htt, hk]

theorem pyIn_obj (k : String) (kvs : List (String × JVal)) :
    JVal.pyIn k (.obj kvs) = some ((JVal.objGet kvs k).isSome) := by
  simp [JVal.pyIn, objGet_isSome_eq_any]

theorem pyAdd1_of_numLike {v : JVal} (h : numLike v = true) :
    ∃ w, pyAdd1 v = some w ∧ numLike w = true := by
  cases v <;> simp_all [numLike, pyAdd1]

theorem contentStep_benign (st : PState) (dkvs : List (String × JVal))
    (hb : (match JVal.objGet dkvs "content" with
           | none => true
           | some cv => !cv.pyTruthy ||
               (match cv with | .str _ => true | _ => false)) = true)
    (hnum : numLike st.tokensReceived = true) :
    ∃ st', contentStep st (.obj dkvs) = some st' ∧
      numLike st'.tokensReceived = true ∧
      st'.timeAtFirstToken = st.timeAtFirstToken ∧
      st'.numPromptTokens = st.numPromptTokens ∧
      st'.msgIdx = st.msgIdx := by
  unfold contentStep
  simp only [Option.bind_eq_bind, pyIn_obj, Option.some_bind]
  cases hc : JVal.objGet dkvs "content" with
  | none => exact ⟨st, by simp, hnum, rfl, rfl, rfl⟩
  | some cv =>
    rw [hc] at hb
    simp only [Option.isSome_some, if_true]
    rw [show JVal.pySubscr (.obj dkvs) "content" = JVal.objGet dkvs "content" from rfl,
      hc, Option.some_bind]
    by_cases htr : cv.pyTruthy = true
    · rw [if_pos htr]
      cases cv with
      | str s =>
        obtain ⟨w, hw, hwn⟩ := pyAdd1_of_numLike hnum
        rw [show pyConcatStr st.generatedText (.str s) =
            some (st.generatedText ++ s) from rfl, Option.some_bind, hw,
          Option.some_bind]
        exact ⟨_, rfl, hwn, rfl, rfl, rfl⟩
      | null => simp [JVal.pyTruthy] at htr
      | bool b => simp_all [JVal.pyTruthy]
      | num q => simp_all [JVal.pyTruthy]
      | nan => simp_all [JVal.pyTruthy]
      | inf b => simp_all [JVal.pyTruthy]
      | arr xs => simp_all [JVal.pyTruthy]
      | obj okvs => simp_all [JVal.pyTruthy]
    · rw [if_neg htr]
      exact ⟨st, rfl, hnum, rfl, rfl, rfl⟩

theorem finishReasonStep_obj (st : PState) (ckvs : List (String × JVal)) :
    ∃ st', finishReasonStep st (.obj ckvs) = some st' ∧
      st'.tokensReceived = st.tokensReceived ∧
      st'.timeAtFirstToken = st.timeAtFirstToken ∧
      st'.numPromptTokens = st.numPromptTokens ∧
      st'.msgIdx = st.msgIdx := by
  unfold finishReasonStep
  simp only [Option.bind_eq_bind, pyIn_obj, Option.some_bind]
  cases hf : JVal.objGet ckvs "finish_reason" with
  | none => exact ⟨st, by simp, rfl, rfl, rfl, rfl⟩
  | some fr =>
    simp only [Option.isSome_some, if_true]
    rw [show JVal.pySubscr (.obj ckvs) "finish_reason" =
        JVal.objGet ckvs "finish_reason" from rfl, hf, Option.some_bind]
    by_cases htr : fr.pyTruthy = true
    · rw [if_pos htr]
      exact ⟨_, rfl, rfl, rfl, rfl, rfl⟩
    · rw [if_neg htr]
      exact ⟨st, rfl, rfl, rfl, rfl, rfl⟩

theorem choicesBlock_benign (st : PState) (kvs : List (String × JVal))
    (hb : (match JVal.objGet kvs "choices" with
           | none => true
           | some cv => benignChoiceVal cv) = true)
    (hnum : numLike st.tokensReceived = true) :
    ∃ st', choicesBlock st (.obj kvs) = some st' ∧
      numLike st'.tokensReceived = true ∧
      st'.timeAtFirstToken = st.timeAtFirstToken ∧
      st'.numPromptTokens = st.numPromptTokens ∧
      st'.msgIdx = st.msgIdx := by
  unfold choicesBlock
  simp only [Option.bind_eq_bind, pyIn_obj, Option.some_bind]
  cases hc : JVal.objGet kvs "choices" with
  | none => exact ⟨st, by simp, hnum, rfl, rfl, rfl⟩
  | some cv =>
    rw [hc] at hb
    simp only [Option.isSome_some, if_true]
    rw [show JVal.pySubscr (.obj kvs) "choices" = JVal.objGet kvs "choices" from rfl,
      hc, Option.some_bind]
    by_cases htr : cv.pyTruthy = true
    · rw [if_pos htr]
      cases cv with
      | arr xs =>
        cases xs with
        | nil => simp [JVal.pyTruthy] at htr
        | cons c rest =>
          cases c with
          | obj ckvs =>
            rw [show JVal.pyIndex0 (.arr (JVal.obj ckvs :: rest)) =
                some (.obj ckvs) from rfl, Option.some_bind, pyIn_obj,
              Option.some_bind]
            simp only [benignChoiceVal] at hb
            cases hd : JVal.objGet ckvs "delta" with
            | none => exact ⟨st, by simp [hd], hnum, rfl, rfl, rfl⟩
            | some d =>
              rw [hd] at hb
              cases d with
              | obj dkvs =>
                simp only [Option.isSome_some, if_true]
                rw [show JVal.pySubscr (.obj ckvs) "delta" =
                    JVal.objGet ckvs "delta" from rfl, hd, Option.some_bind]
                obtain ⟨st2, hst2, hn2, ht2, hp2, hm2⟩ :=
                  contentStep_benign st dkvs hb hnum
                rw [hst2, Option.some_bind]
                obtain ⟨st3, hst3, hn3, ht3, hp3, hm3⟩ :=
                  finishReasonStep_obj st2 ckvs
                refine ⟨st3, hst3, ?_, ?_, ?_, ?_⟩
                · rw [hn3]; exact hn2
                · rw [ht3]; exact ht2
                · rw [hp3]; exact hp2
                · rw [hm3]; exact hm2
              | null => simp at hb
              | bool b => simp at hb
              | num q => simp at hb
              | nan => simp at hb
              | inf b => simp at hb
              | str s => simp at hb
              | arr ys => simp at hb
          | null => simp [benignChoiceVal] at hb
          | bool b => simp [benignChoiceVal] at hb
          | num q => simp [benignChoiceVal] at hb
          | nan => simp [benignChoiceVal] at hb
          | inf b => simp [benignChoiceVal] at hb
          | str s => simp [benignChoiceVal] at hb
          | arr ys => simp [benignChoiceVal] at hb
      | null => simp_all [JVal.pyTruthy]
      | bool b => simp_all [benignChoiceVal, JVal.pyTruthy]
      | num q => simp_all [benignChoiceVal, JVal.pyTruthy]
      | nan => simp_all [benignChoiceVal, JVal.pyTruthy]
      | inf b => simp_all [benignChoiceVal, JVal.pyTruthy]
      | str s => simp_all [benignChoiceVal, JVal.pyTruthy]
      | obj okvs => simp_all [benignChoiceVal, JVal.pyTruthy]
    · rw [if_neg htr]
      exact ⟨st, rfl, hnum, rfl, rfl, rfl⟩

theorem promptTokensStep_benign (st : PState) (ukvs : List (String × JVal))
    (hb : (match JVal.objGet ukvs "prompt_tokens" with
           | none => true
           | some pv => numLike pv) = true) :
    ∃ st', promptTokensStep st (.obj ukvs) = some st' ∧
      isNoneLike st'.numPromptTokens =
        (!(JVal.objGet ukvs "prompt_tokens").isSome && isNoneLike st.numPromptTokens) ∧
      st'.tokensReceived = st.tokensReceived ∧
      st'.timeAtFirstToken = st.timeAtFirstToken ∧
      st'.msgIdx = st.msgIdx := by
  unfold promptTokensStep
  simp only [Option.bind_eq_bind, pyIn_obj, Option.some_bind]
  cases hp : JVal.objGet ukvs "prompt_tokens" with
  | none => exact ⟨st, by simp, by simp, rfl, rfl, rfl⟩
  | some pv =>
    rw [hp] at hb
    simp only [Option.isSome_some, if_true]
    rw [show JVal.pySubscr (.obj ukvs) "prompt_tokens" =
        JVal.objGet ukvs "prompt_tokens" from rfl, hp, Option.some_bind]
    refine ⟨_, rfl, ?_, rfl, rfl, rfl⟩
    cases pv <;> simp_all [numLike, isNoneLike]

theorem completionTokensStep_benign (st : PState) (ukvs : List (String × JVal))
    (hb : (match JVal.objGet ukvs "completion_tokens" with
           | none => true
           | some cv => numLike cv) = true)
    (hnum : numLike st.tokensReceived = true) :
    ∃ st', completionTokensStep st (.obj ukvs) = some st' ∧
      numLike st'.tokensReceived = true ∧
      st'.numPromptTokens = st.numPromptTokens ∧
      st'.timeAtFirstToken = st.timeAtFirstToken ∧
      st'.msgIdx = st.msgIdx := by
  unfold completionTokensStep
  simp only [Option.bind_eq_bind, pyIn_obj, Option.some_bind]
  cases hp : JVal.objGet ukvs "completion_tokens" with
  | none => exact ⟨st, by simp, hnum, rfl, rfl, rfl⟩
  | some cv =>
    rw [hp] at hb
    simp only [Option.isSome_some, if_true]
    rw [show JVal.pySubscr (.obj ukvs) "completion_tokens" =
        JVal.objGet ukvs "completion_tokens" from rfl, hp, Option.some_bind]
    exact ⟨_, rfl, hb, rfl, rfl, rfl⟩

theorem usageBlock_benign (st : PState) (kvs : List (String × JVal))
    (hb : (match JVal.objGet kvs "usage" with
           | none => true
           | some uv => benignUsageVal uv) = true)
    (hnum : numLike st.tokensReceived = true) :
    ∃ st', usageBlock st (.obj kvs) = some st' ∧
      numLike st'.tokensReceived = true ∧
      st'.timeAtFirstToken = st.timeAtFirstToken ∧
      st'.msgIdx = st.msgIdx ∧
      isNoneLike st'.numPromptTokens =
        (!dataHasUsagePT (.obj kvs) && isNoneLike st.numPromptTokens) := by
  unfold usageBlock
  simp only [Option.bind_eq_bind, pyIn_obj, Option.some_bind]
  cases hu : JVal.objGet kvs "usage" with
  | none =>
    refine ⟨st, by simp, hnum, rfl, rfl, ?_⟩
    simp [dataHasUsagePT, hu]
  | some uv =>
    rw [hu] at hb
    simp only [Option.isSome_some, if_true]
    rw [show JVal.pySubscr (.obj kvs) "usage" = JVal.objGet kvs "usage" from rfl,
      hu, Option.some_bind]
    by_cases htr : uv.pyTruthy = true
    · rw [if_pos htr]
      replace hb : benignUsageVal uv = true := hb
      unfold benignUsageVal at hb
      rw [htr] at hb
      simp only [Bool.not_true, Bool.false_or] at hb
      cases uv with
      | obj ukvs =>
        rw [Bool.and_eq_true] at hb
        obtain ⟨hbc, hbp⟩ := hb
        obtain ⟨st2, hst2, hpn2, htk2, htt2, hm2⟩ :=
          promptTokensStep_benign st ukvs hbp
        rw [hst2, Option.some_bind]
        obtain ⟨st3, hst3, hn3, hp3, ht3, hm3⟩ :=
          completionTokensStep_benign st2 ukvs hbc (by rw [htk2]; exact hnum)
        refine ⟨st3, hst3, hn3, ?_, ?_, ?_⟩
        · rw [ht3]; exact htt2
        · rw [hm3]; exact hm2
        · rw [hp3, hpn2]
          simp [dataHasUsagePT, hu, htr]
      | null => simp at hb
      | bool b => simp at hb
      | num q => simp at hb
      | nan => simp at hb
      | inf b => simp at hb
      | str s => simp at hb
      | arr ys => simp at hb
    · rw [if_neg htr]
      refine ⟨st, rfl, hnum, rfl, rfl, ?_⟩
      cases uv <;> simp_all [dataHasUsagePT, hu, JVal.pyTruthy]

theorem streamErrorReturn_noerr (kvs : List (String × JVal))
    (h : (match JVal.objGet kvs "error" with
          | none => true
          | some ev => isNullJ ev) = true) :
    streamErrorReturn (.obj kvs) = some none := by
  unfold streamErrorReturn
  simp only [Option.bind_eq_bind, JVal.pyGet, Option.some_bind]
  cases he : JVal.objGet kvs "error" with
  | none => rfl
  | some ev =>
    rw [he] at h
    cases ev <;> simp_all [isNullJ]

theorem stepJson_benign (clock : ℕ → ℚ) (st : PState) (data : JVal)
    (hb : benignData data = true) (hi : ParserInv clock st) :
    ∃ st', stepJson clock st data = some (Sum.inr st') ∧ ParserInv clock st' ∧
      st'.timeAtFirstToken.isNone =
        (st.timeAtFirstToken.isNone && !dataHasChoicesKey data) ∧
      isNoneLike st'.numPromptTokens =
        (!dataHasUsagePT data && isNoneLike st.numPromptTokens) := by
  cases data with
  | obj kvs =>
    replace hb :
        ((match JVal.objGet kvs "error" with
          | none => true
          | some ev => isNullJ ev) &&
         (match JVal.objGet kvs "choices" with
          | none => true
          | some cv => benignChoiceVal cv) &&
         (match JVal.objGet kvs "usage" with
          | none => true
          | some uv => benignUsageVal uv)) = true := hb
    rw [Bool.and_eq_true, Bool.and_eq_true] at hb
    obtain ⟨⟨herr, hcho⟩, husg⟩ := hb
    obtain ⟨hnum, hor⟩ := hi
    obtain ⟨st1, hst1, hio1, hor1, htk1, hpn1, hmi1⟩ := ttftCapture_obj clock st kvs
    obtain ⟨st2, hst2, hn2, htt2, hpn2, hmi2⟩ :=
      choicesBlock_benign st1 kvs hcho (by rw [htk1]; exact hnum)
    obtain ⟨st3, hst3, hn3, htt3, hmi3, hpn3⟩ :=
      usageBlock_benign st2 kvs husg hn2
    refine ⟨{ st3 with msgIdx := st3.msgIdx + 1 }, ?_, ⟨hn3, ?_⟩, ?_, ?_⟩
    · unfold stepJson
      rw [Option.bind_eq_bind, hst1, Option.some_bind, Option.bind_eq_bind,
        streamErrorReturn_noerr kvs herr, Option.some_bind]
      show (choicesBlock st1 (.obj kvs)).bind _ = _
      rw [hst2, Option.some_bind, hst3, Option.some_bind]
    · show st3.timeAtFirstToken = none ∨ ∃ i, st3.timeAtFirstToken = some (clock i)
      rw [htt3, htt2]
      rcases hor1 with h | h
      · rw [h]; exact hor
      · rw [h]; exact Or.inr ⟨st.msgIdx, rfl⟩
    · show st3.timeAtFirstToken.isNone = _
      rw [htt3, htt2, hio1]
    · show isNoneLike st3.numPromptTokens = _
      rw [hpn3, hpn2, hpn1]
  | null => simp [benignData] at hb
  | bool b => simp [benignData] at hb
  | num q => simp [benignData] at hb
  | nan => simp [benignData] at hb
  | inf b => simp [benignData] at hb
  | str s => simp [benignData] at hb
  | arr xs => simp [benignData] at hb

theorem hasChoicesKey_of_loads {p : List Char} {d : JVal}
    (h : jsonLoads p = some d) : hasChoicesKey p = dataHasChoicesKey d := by
  unfold hasChoicesKey dataHasChoicesKey
  rw [h]
  cases d <;> rfl

theorem hasUsagePT_of_loads {p : List Char} {d : JVal}
    (h : jsonLoads p = some d) : hasUsagePromptTokens p = dataHasUsagePT d := by
  unfold hasUsagePromptTokens dataHasUsagePT
  rw [h]
  cases d <;> rfl

theorem hasChoicesKey_of_loads_none {p : List Char}
    (h : jsonLoads p = none) : hasChoicesKey p = false := by
  unfold hasChoicesKey
  rw [h]

theorem hasUsagePT_of_loads_none {p : List Char}
    (h : jsonLoads p = none) : hasUsagePromptTokens p = false := by
  unfold hasUsagePromptTokens
  rw [h]

theorem processChunkMsgs_benign (clock : ℕ → ℚ) (msgs : List (List Char)) :
    ∀ st : PState,
      (∀ p ∈ observedOfChunk msgs, benignPayload p = true) → ParserInv clock st →
      ∃ st', processChunkMsgs clock st msgs = .next st' ∧ ParserInv clock st' ∧
        st'.timeAtFirstToken.isNone =
          (st.timeAtFirstToken.isNone &&
            (observedOfChunk msgs).all (fun p => !hasChoicesKey p)) ∧
        isNoneLike st'.numPromptTokens =
          ((observedOfChunk msgs).all (fun p => !hasUsagePromptTokens p) &&
            isNoneLike st.numPromptTokens) := by
  induction msgs with
  | nil =>
    intro st _ hi
    exact ⟨st, rfl, hi, by simp [observedOfChunk], by simp [observedOfChunk]⟩
  | cons m ms ih =>
    intro st hB hi
    by_cases hcm : isComment m = true
    · have hobs : observedOfChunk (m :: ms) = observedOfChunk ms := by
        simp only [observedOfChunk]
        rw [if_pos hcm]
      rw [hobs] at hB
      obtain ⟨st', h1, h2, h3, h4⟩ := ih st hB hi
      refine ⟨st', ?_, h2, by rw [hobs]; exact h3, by rw [hobs]; exact h4⟩
      simp only [processChunkMsgs]
      rw [if_pos hcm]
      exact h1
    · by_cases hdone : removeDataColon m = "[DONE]".toList
      · have hobs : observedOfChunk (m :: ms) = [] := by
          simp only [observedOfChunk]
          rw [if_neg hcm]
          rw [if_pos hdone]
        refine ⟨st, ?_, hi, by simp [hobs], by simp [hobs]⟩
        simp only [processChunkMsgs]
        rw [if_neg hcm]
        rw [if_pos hdone]
      · have hobs : observedOfChunk (m :: ms) =
            removeDataColon m :: observedOfChunk ms := by
          simp only [observedOfChunk]
          rw [if_neg hcm]
          rw [if_neg hdone]
        have hBm : benignPayload (removeDataColon m) = true := by
          apply hB
          rw [hobs]
          exact List.mem_cons_self _ _
        have hBs : ∀ p ∈ observedOfChunk ms, benignPayload p = true := by
          intro p hp
          apply hB
          rw [hobs]
          exact List.mem_cons_of_mem _ hp
        cases hld : jsonLoads (removeDataColon m) with
        | none =>
          have hstep : stepPayload clock st (removeDataColon m) =
              .next { st with msgIdx := st.msgIdx + 1 } := by
            unfold stepPayload
            rw [hld]
          obtain ⟨st', h1, h2, h3, h4⟩ :=
            ih { st with msgIdx := st.msgIdx + 1 } hBs ⟨hi.1, hi.2⟩
          refine ⟨st', ?_, h2, ?_, ?_⟩
          · simp only [processChunkMsgs]
            rw [if_neg hcm]
            rw [if_neg hdone, hstep]
            exact h1
          · rw [hobs]
            simp only [List.all_cons, hasChoicesKey_of_loads_none hld,
              Bool.not_false, Bool.true_and]
            exact h3
          · rw [hobs]
            simp only [List.all_cons, hasUsagePT_of_loads_none hld,
              Bool.not_false, Bool.true_and]
            exact h4
        | some d =>
          have hbd : benignData d = true := by
            unfold benignPayload at hBm
            rw [hld] at hBm
            exact hBm
          obtain ⟨st1, hst1, hi1, hio1, hpn1⟩ := stepJson_benign clock st d hbd hi
          have hstep : stepPayload clock st (removeDataColon m) = .next st1 := by
            unfold stepPayload
            rw [hld]
            dsimp only
            rw [hst1]
          obtain ⟨st', h1, h2, h3, h4⟩ := ih st1 hBs hi1
          refine ⟨st', ?_, h2, ?_, ?_⟩
          · simp only [processChunkMsgs]
            rw [if_neg hcm]
            rw [if_neg hdone, hstep]
            exact h1
          · rw [hobs]
            simp only [List.all_cons, hasChoicesKey_of_loads hld]
            rw [h3, hio1]
            simp [Bool.and_assoc, Bool.and_comm, Bool.and_left_comm]
          · rw [hobs]
            simp only [List.all_cons, hasUsagePT_of_loads hld]
            rw [h4, hpn1]
            simp [Bool.and_assoc, Bool.and_comm, Bool.and_left_comm]

theorem parseLoop_benign (clock : ℕ → ℚ) (chunks : List (List Char)) :
    ∀ (st : PState) (buf : List Char),
      (∀ p ∈ observedMessages buf chunks, benignPayload p = true) →
      ParserInv clock st →
      ∃ st', parseLoop clock st buf chunks = .next st' ∧ ParserInv clock st' ∧
        st'.timeAtFirstToken.isNone =
          (st.timeAtFirstToken.isNone &&
            (observedMessages buf chunks).all (fun p => !hasChoicesKey p)) ∧
        isNoneLike st'.numPromptTokens =
          ((observedMessages buf chunks).all (fun p => !hasUsagePromptTokens p) &&
            isNoneLike st.numPromptTokens) := by
  induction chunks with
  | nil =>
    intro st buf _ hi
    exact ⟨st, rfl, hi, by simp [observedMessages], by simp [observedMessages]⟩
  | cons chunk rest ih =>
    intro st buf hB hi
    rcases hac : addChunk buf chunk with ⟨msgs0, buf0⟩
    have hobs : observedMessages buf (chunk :: rest) =
        observedOfChunk msgs0 ++ observedMessages buf0 rest := by
      simp only [observedMessages, hac]
    rw [hobs] at hB
    have hBm : ∀ p ∈ observedOfChunk msgs0, benignPayload p = true := by
      intro p hp
      exact hB p (List.mem_append_left _ hp)
    have hBr : ∀ p ∈ observedMessages buf0 rest, benignPayload p = true := by
      intro p hp
      exact hB p (List.mem_append_right _ hp)
    obtain ⟨st1, hpc, hi1, hio1, hpn1⟩ := processChunkMsgs_benign clock msgs0 st hBm hi
    obtain ⟨st', h1, h2, h3, h4⟩ := ih st1 buf0 hBr hi1
    refine ⟨st', ?_, h2, ?_, ?_⟩
    · simp only [parseLoop, hac]
      rw [hpc]
      exact h1
    · rw [hobs, List.all_append, h3, hio1]
      simp [Bool.and_assoc]
    · rw [hobs, List.all_append, h4, hpn1]
      simp [Bool.and_assoc, Bool.and_comm, Bool.and_left_comm]

/-- C3 counterexample: a stream whose single frame carries `usage` (with
`completion_tokens` but no `prompt_tokens`) and no `choices` key still gets
`status_code=500, error_message="No valid streaming data received"` — the
claim, which promises a 200 response whenever a usage frame was observed, is
false on the code. -/
theorem usage_frame_still_returns_500 :
    (observedMessages []
        ["data: \x7b\"usage\":\x7b\"completion_tokens\":2\x7d\x7d\n\n".toList]).map
      hasTruthyUsage = [true] ∧
    (parseStreamingResponseAsync
        ["data: \x7b\"usage\":\x7b\"completion_tokens\":2\x7d\x7d\n\n".toList]
        0 none (fun i => mkRat (i + 1) 1) 100).statusCode = .num 500 ∧
    (parseStreamingResponseAsync
        ["data: \x7b\"usage\":\x7b\"completion_tokens\":2\x7d\x7d\n\n".toList]
        0 none (fun i => mkRat (i + 1) 1) 100).errorMessage =
      some (.str "No valid streaming data received") :=
  ⟨rfl, rfl, rfl⟩

/-- C3 (amended): over a benign stream (no server-signalled error frames, no
frames that would raise in the loop body) and a positive wall clock, the
parser returns `500 / "No valid streaming data received"` **iff** no
observed frame's payload contains a `"choices"` key and no observed frame
carries a truthy `usage` object with `prompt_tokens`; when such a frame was
observed it returns a `status_code=200` response. -/
theorem streamingNoValidData_iff (chunks : List (List Char)) (clock : ℕ → ℚ)
    (startT endC : ℚ) (npf : Option ℤ)
    (hB : ∀ p ∈ observedMessages [] chunks, benignPayload p = true)
    (hclock : ∀ i, 0 < clock i) :
    (((parseStreamingResponseAsync chunks startT npf clock endC).statusCode =
        .num 500 ∧
      (parseStreamingResponseAsync chunks startT npf clock endC).errorMessage =
        some (.str "No valid streaming data received")) ↔
      (∀ p ∈ observedMessages [] chunks,
        hasChoicesKey p = false ∧ hasUsagePromptTokens p = false)) ∧
    ((∃ p ∈ observedMessages [] chunks,
        hasChoicesKey p = true ∨ hasUsagePromptTokens p = true) →
      (parseStreamingResponseAsync chunks startT npf clock endC).statusCode =
        .num 200) := by
  have hinit : ParserInv clock PState.init := ⟨rfl, Or.inl rfl⟩
  obtain ⟨st', hpl, hi', hio, hpn⟩ := parseLoop_benign clock chunks PState.init [] hB hinit
  have hio' : st'.timeAtFirstToken.isNone =
      (observedMessages [] chunks).all (fun p => !hasChoicesKey p) := by
    rw [hio]
    simp [PState.init]
  have hpn' : isNoneLike st'.numPromptTokens =
      (observedMessages [] chunks).all (fun p => !hasUsagePromptTokens p) := by
    rw [hpn]
    simp [PState.init, isNoneLike]
  have hfal : pyFalsyTime st'.timeAtFirstToken = st'.timeAtFirstToken.isNone := by
    rcases hi'.2 with h | ⟨i, h⟩
    · rw [h]; rfl
    · rw [h]
      simp [pyFalsyTime, (hclock i).ne']
  unfold parseStreamingResponseAsync
  rw [hpl]
  dsimp only
  rw [hfal, hio', hpn']
  by_cases hcond :
      ((observedMessages [] chunks).all (fun p => !hasChoicesKey p) &&
       (observedMessages [] chunks).all (fun p => !hasUsagePromptTokens p)) = true
  · rw [if_pos hcond]
    rw [Bool.and_eq_true, List.all_eq_true, List.all_eq_true] at hcond
    obtain ⟨hA, hU⟩ := hcond
    constructor
    · constructor
      · intro _
        intro p hp
        refine ⟨?_, ?_⟩
        · have := hA p hp
          simpa using this
        · have := hU p hp
          simpa using this
      · intro _
        exact ⟨rfl, rfl⟩
    · rintro ⟨p, hp, hk | hk⟩
      · have := hA p hp
        simp [hk] at this
      · have := hU p hp
        simp [hk] at this
  · rw [if_neg hcond]
    constructor
    · constructor
      · intro ⟨h200, _⟩
        exfalso
        rw [JVal.num.injEq] at h200
        norm_num at h200
      · intro hall
        exfalso
        apply hcond
        rw [Bool.and_eq_true, List.all_eq_true, List.all_eq_true]
        constructor
        · intro p hp
          simp [(hall p hp).1]
        · intro p hp
          simp [(hall p hp).2]
    · intro _
      rfl

/-- C3 witness: the amended theorem applied to a concrete benign stream with
one populated-`choices` frame, yielding a 200 response. -/
theorem streamingNoValidData_iff_witness :
    (parseStreamingResponseAsync
        ["data: \x7b\"choices\":[\x7b\"index\":0,\"delta\":\x7b\"role\":\"assistant\"\x7d\x7d]\x7d\n\n".toList]
        0 none (fun i => mkRat (i + 1) 1) 100).statusCode = .num 200 := by
  have hB : ∀ p ∈ observedMessages []
      ["data: \x7b\"choices\":[\x7b\"index\":0,\"delta\":\x7b\"role\":\"assistant\"\x7d\x7d]\x7d\n\n".toList],
      benignPayload p = true := by
    intro p hp
    rw [show observedMessages []
        ["data: \x7b\"choices\":[\x7b\"index\":0,\"delta\":\x7b\"role\":\"assistant\"\x7d\x7d]\x7d\n\n".toList] =
        ["\x7b\"choices\":[\x7b\"index\":0,\"delta\":\x7b\"role\":\"assistant\"\x7d\x7d]\x7d".toList] from rfl,
      List.mem_singleton] at hp
    rw [hp]
    rfl
  have hclock : ∀ i : ℕ, 0 < mkRat (i + 1) 1 := by
    intro i
    rw [Rat.mkRat_one]
    exact_mod_cast (by omega : (0 : ℤ) < (i : ℤ) + 1)
  refine (streamingNoValidData_iff
      ["data: \x7b\"choices\":[\x7b\"index\":0,\"delta\":\x7b\"role\":\"assistant\"\x7d\x7d]\x7d\n\n".toList]
      (fun i => mkRat (i + 1) 1) 0 100 none hB hclock).2 ?_
  refine ⟨"\x7b\"choices\":[\x7b\"index\":0,\"delta\":\x7b\"role\":\"assistant\"\x7d\x7d]\x7d".toList, ?_, Or.inl rfl⟩
  rw [show observedMessages []
      ["data: \x7b\"choices\":[\x7b\"index\":0,\"delta\":\x7b\"role\":\"assistant\"\x7d\x7d]\x7d\n\n".toList] =
      ["\x7b\"choices\":[\x7b\"index\":0,\"delta\":\x7b\"role\":\"assistant\"\x7d\x7d]\x7d".toList] from rfl]
  exact List.mem_singleton.mpr rfl

end GenaiBench
